import Mathlib

/-!
Shallow embedding of `src/app.py` (Streamlit accent-similarity survey,
local-file persistence variant) and proofs about it.

Conventions used throughout:
* Python machine integers are modelled as `Nat`, with `% 2 ^ 32` made
  explicit wherever 32-bit overflow matters (the MD5 core).
* Python byte strings are `List Nat` (each entry < 256), strings are
  Lean `String`s, built from explicit `List Char` data where that keeps
  proofs direct.
* The Streamlit widget store `st.session_state` is modelled with typed
  association lists keyed by the structured content of the f-string
  widget keys (`anchor_{pos}`, `ab_{pos}_{label}`,
  `rating_{pos}_{anchor}_{sample}`); the string rendering of a rating
  key is kept as `ratingWidgetKey` for claims about the persisted key
  format.
-/

namespace AccentStudy

/-! ## MD5 (as used by `hashlib.md5(...).hexdigest()` in app.py line 174)

A from-scratch RFC 1321 implementation over `List Nat` bytes. -/

/-- Truncate to 32 bits, the word size of the MD5 state. -/
def m32 (x : Nat) : Nat := x % 4294967296

/-- Bitwise complement within 32 bits (valid for `x < 2 ^ 32`). -/
def not32 (x : Nat) : Nat := 4294967295 - x

/-- Left rotation within 32 bits, written arithmetically. -/
def rotl32 (x s : Nat) : Nat := m32 (m32 (x * 2 ^ s) + x / 2 ^ (32 - s))

def md5F (b c d : Nat) : Nat := (b &&& c) ||| (not32 b &&& d)

def md5G (b c d : Nat) : Nat := (d &&& b) ||| (not32 d &&& c)

def md5H (b c d : Nat) : Nat := b ^^^ c ^^^ d

def md5I (b c d : Nat) : Nat := c ^^^ (b ||| not32 d)

/-- The 64 RFC 1321 sine-derived constants. -/
def md5K : List Nat :=
  [0xd76aa478, 0xe8c7b756, 0x242070db, 0xc1bdceee,
   0xf57c0faf, 0x4787c62a, 0xa8304613, 0xfd469501,
   0x698098d8, 0x8b44f7af, 0xffff5bb1, 0x895cd7be,
   0x6b901122, 0xfd987193, 0xa679438e, 0x49b40821,
   0xf61e2562, 0xc040b340, 0x265e5a51, 0xe9b6c7aa,
   0xd62f105d, 0x02441453, 0xd8a1e681, 0xe7d3fbc8,
   0x21e1cde6, 0xc33707d6, 0xf4d50d87, 0x455a14ed,
   0xa9e3e905, 0xfcefa3f8, 0x676f02d9, 0x8d2a4c8a,
   0xfffa3942, 0x8771f681, 0x6d9d6122, 0xfde5380c,
   0xa4beea44, 0x4bdecfa9, 0xf6bb4b60, 0xbebfbc70,
   0x289b7ec6, 0xeaa127fa, 0xd4ef3085, 0x04881d05,
   0xd9d4d039, 0xe6db99e5, 0x1fa27cf8, 0xc4ac5665,
   0xf4292244, 0x432aff97, 0xab9423a7, 0xfc93a039,
   0x655b59c3, 0x8f0ccc92, 0xffeff47d, 0x85845dd1,
   0x6fa87e4f, 0xfe2ce6e0, 0xa3014314, 0x4e0811a1,
   0xf7537e82, 0xbd3af235, 0x2ad7d2bb, 0xeb86d391]

/-- Per-round left-rotation amounts. -/
def md5S : List Nat :=
  [7, 12, 17, 22, 7, 12, 17, 22, 7, 12, 17, 22, 7, 12, 17, 22,
   5, 9, 14, 20, 5, 9, 14, 20, 5, 9, 14, 20, 5, 9, 14, 20,
   4, 11, 16, 23, 4, 11, 16, 23, 4, 11, 16, 23, 4, 11, 16, 23,
   6, 10, 15, 21, 6, 10, 15, 21, 6, 10, 15, 21, 6, 10, 15, 21]

/-- MD5 working state: the four 32-bit registers. -/
structure MD5State where
  a : Nat
  b : Nat
  c : Nat
  d : Nat

/-- One of the 64 rounds, applied to a 16-word message block `M`. -/
def md5Round (M : List Nat) (st : MD5State) (i : Nat) : MD5State :=
  let f :=
    if i < 16 then md5F st.b st.c st.d
    else if i < 32 then md5G st.b st.c st.d
    else if i < 48 then md5H st.b st.c st.d
    else md5I st.b st.c st.d
  let g :=
    if i < 16 then i
    else if i < 32 then (5 * i + 1) % 16
    else if i < 48 then (3 * i + 5) % 16
    else (7 * i) % 16
  let tmp := m32 (st.a + f + md5K.getD i 0 + M.getD g 0)
  { a := st.d, b := m32 (st.b + rotl32 tmp (md5S.getD i 0)), c := st.b, d := st.c }

/-- Process one 512-bit chunk: run 64 rounds and add back into the state. -/
def md5Chunk (st : MD5State) (M : List Nat) : MD5State :=
  let r := (List.range 64).foldl (md5Round M) st
  { a := m32 (st.a + r.a), b := m32 (st.b + r.b),
    c := m32 (st.c + r.c), d := m32 (st.d + r.d) }

/-- Little-endian 4-byte split of a 32-bit word. -/
def toLE4 (w : Nat) : List Nat :=
  [w % 256, w / 256 % 256, w / 65536 % 256, w / 16777216 % 256]

/-- Little-endian 8-byte encoding of the 64-bit message bit length. -/
def toLE8 (n : Nat) : List Nat :=
  (List.range 8).map fun i => n / 2 ^ (8 * i) % 256

/-- RFC 1321 padding: append 0x80, zero-fill to 56 mod 64, then the
bit length as 8 little-endian bytes. -/
def md5Pad (msg : List Nat) : List Nat :=
  msg ++ [128] ++ List.replicate ((119 - msg.length % 64) % 64) 0
      ++ toLE8 (msg.length * 8)

/-- Split a byte list into 64-byte chunks; the fuel argument (any
bound on the number of chunks, here the byte count) keeps the
recursion structural. -/
def chunks64Go : Nat → List Nat → List (List Nat)
  | 0, _ => []
  | _, [] => []
  | fuel + 1, l => l.take 64 :: chunks64Go fuel (l.drop 64)

/-- Split a byte list into 64-byte chunks. -/
def chunks64 (l : List Nat) : List (List Nat) :=
  chunks64Go l.length l

/-- Decode a 64-byte chunk as 16 little-endian 32-bit words. -/
def wordsOf (chunk : List Nat) : List Nat :=
  (List.range 16).map fun j =>
    chunk.getD (4 * j) 0 + 256 * chunk.getD (4 * j + 1) 0
      + 65536 * chunk.getD (4 * j + 2) 0 + 16777216 * chunk.getD (4 * j + 3) 0

/-- The 16-byte MD5 digest of a byte message. -/
def md5Bytes (msg : List Nat) : List Nat :=
  let st := (chunks64 (md5Pad msg)).foldl (fun st ch => md5Chunk st (wordsOf ch))
    { a := 0x67452301, b := 0xefcdab89, c := 0x98badcfe, d := 0x10325476 }
  toLE4 st.a ++ toLE4 st.b ++ toLE4 st.c ++ toLE4 st.d

/-- The lowercase hex digit of a nibble: 0-9 then a-f. -/
def hexChar (n : Nat) : Char :=
  if n < 10 then Char.ofNat (48 + n) else Char.ofNat (87 + n)

/-- The 16 lowercase hex digits, in digit order. -/
def hexChars : List Char := (List.range 16).map hexChar

/-- One byte rendered as two hex characters. -/
def byteToHex (b : Nat) : List Char :=
  [hexChars.getD (b / 16) '0', hexChars.getD (b % 16) '0']

/-- Hex rendering of a byte list (`hexdigest` output, as characters). -/
def bytesToHex (bs : List Nat) : List Char :=
  bs.foldr (fun b acc => byteToHex b ++ acc) []

/-- UTF-8 encoding of one character (`str.encode()` on one code point). -/
def charUtf8 (c : Char) : List Nat :=
  let n := c.toNat
  if n < 128 then [n]
  else if n < 2048 then [192 + n / 64, 128 + n % 64]
  else if n < 65536 then [224 + n / 4096, 128 + n / 64 % 64, 128 + n % 64]
  else [240 + n / 262144, 128 + n / 4096 % 64, 128 + n / 64 % 64, 128 + n % 64]

/-- UTF-8 encoding of a string (`str.encode()` in app.py line 174). -/
def utf8Bytes (s : String) : List Nat :=
  s.data.foldr (fun c acc => charUtf8 c ++ acc) []

/-- Characters of the MD5 hexdigest of the UTF-8 encoding of a string. -/
def md5HexChars (s : String) : List Char :=
  bytesToHex (md5Bytes (utf8Bytes s))

/-! ## Participant identity resolver (app.py lines 167-175)

The source normalizes the typed name, hashes it, and concatenates.
Python str.replace substitutes every space character, and str.upper
upper-cases character-wise (modelled with the ASCII `Char.toUpper`,
which agrees with Python on the ASCII range). -/

/-- The default whitespace set of Python str.strip: space, tab,
newline, carriage return, vertical tab, form feed. -/
def isPySpace (c : Char) : Bool :=
  c.toNat = 32 ∨ c.toNat = 9 ∨ c.toNat = 10 ∨ c.toNat = 13
    ∨ c.toNat = 11 ∨ c.toNat = 12

/-- Python str.strip: drop whitespace from both ends. -/
def pyStrip (s : String) : String :=
  ⟨((s.data.dropWhile isPySpace).reverse.dropWhile isPySpace).reverse⟩

/-- Line 171: the typed name, stripped, each space replaced by an
underscore, upper-cased. -/
def clean_name (name_input : String) : String :=
  ⟨(pyStrip name_input).data.map fun c => (if c = ' ' then '_' else c).toUpper⟩

/-- Line 174: the first 6 characters of the MD5 hexdigest of the
encoded clean name. -/
def hash_id (name_input : String) : String :=
  ⟨(md5HexChars (clean_name name_input)).take 6⟩

/-- Line 175: the clean name and the short hash joined by an
underscore. -/
def participant_id (name_input : String) : String :=
  clean_name name_input ++ "_" ++ hash_id name_input

/-! ## Trial catalog (app.py lines 14, 29-33)

One row of trials.csv; the frame is loaded once and never mutated. -/

structure TrialRow where
  trial_id : String
  transcript : String
  native_path : String
  indian_path : String
  A_path : String
  B_path : String
deriving DecidableEq

/-- Placeholder row used only to totalize out-of-range lookups; the
bounds proofs show it is never reached in the modelled behaviour. -/
def defaultRow : TrialRow :=
  { trial_id := "", transcript := "", native_path := "",
    indian_path := "", A_path := "", B_path := "" }

/-- Line 14: the fixed trial count. -/
def TOTAL_TRIALS : Nat := 50

/-! ## Shuffle (app.py lines 187-188)

Python random.shuffle runs Fisher-Yates from the top: for i from
n - 1 down to 1 it swaps position i with a uniformly drawn position
j ≤ i. The draw stream is abstracted as a function from i to an
arbitrary natural, reduced mod (i + 1) as randbelow does. -/

/-- Swap the entries of two list positions. -/
def listSwap (xs : List Nat) (i j : Nat) : List Nat :=
  (xs.set i (xs.getD j 0)).set j (xs.getD i 0)

/-- The descending Fisher-Yates loop, from index `i` down to 1. -/
def shuffleGo (rand : Nat → Nat) : Nat → List Nat → List Nat
  | 0, xs => xs
  | i + 1, xs => shuffleGo rand i (listSwap xs (i + 1) (rand (i + 1) % (i + 2)))

/-- Line 188: random.shuffle on a list. -/
def pyShuffle (rand : Nat → Nat) (xs : List Nat) : List Nat :=
  shuffleGo rand (xs.length - 1) xs

/-! ## Widget store

Typed association lists standing for the string-keyed
st.session_state dict: lookup, insert-or-replace, and delete with the
dict's insertion-order iteration semantics. -/

def lookupK [DecidableEq K] : List (K × V) → K → Option V
  | [], _ => none
  | (k', v) :: t, k => if k' = k then some v else lookupK t k

def setK [DecidableEq K] : List (K × V) → K → V → List (K × V)
  | [], k, v => [(k, v)]
  | (k', v') :: t, k, v => if k' = k then (k, v) :: t else (k', v') :: setK t k v

def removeK [DecidableEq K] : List (K × V) → K → List (K × V)
  | [], _ => []
  | (k', v) :: t, k => if k' = k then removeK t k else (k', v) :: removeK t k

/-- Value of the random anchor presentation draw (app.py line 244). -/
inductive AnchorOrder where
  | native_first
  | indian_first
deriving DecidableEq

/-- Value of the random sample presentation draw (app.py line 271). -/
inductive ABOrder where
  | A_first
  | B_first
deriving DecidableEq

/-- Structured content of a rating widget key: trial position, anchor
label, sample label. Its string rendering is `ratingWidgetKey`. -/
abbrev RKey := Nat × String × String

/-- String form of a rating widget key (app.py line 287): the word
rating, the trial position, the anchor label and the sample label
joined by underscores. -/
def ratingWidgetKey (pos : Nat) (anchorLabel sampleLabel : String) : String :=
  "rating_" ++ toString pos ++ "_" ++ anchorLabel ++ "_" ++ sampleLabel

/-- The response dict built by the Next handler (app.py lines 317-326):
trial_id, transcript, the ratings of the current trial, timestamp.
The rating keys are kept structured; `ratingWidgetKey` recovers the
stored string key. -/
structure Response where
  trial_id : String
  transcript : String
  ratings : List (RKey × Nat)
  timestamp : String
deriving DecidableEq

/-- Placeholder response used only to totalize indexed lookups. -/
def emptyResponse : Response :=
  { trial_id := "", transcript := "", ratings := [], timestamp := "" }

/-- The per-connection state carried in st.session_state: the three
session variables (lines 42-49) plus the frozen presentation draws and
the rating radio values. -/
structure Session where
  trial_order : List Nat
  trial_index : Nat
  responses : List Response
  anchorChoice : List (Nat × AnchorOrder)
  abChoice : List ((Nat × String) × ABOrder)
  ratings : List (RKey × Nat)
deriving DecidableEq

/-- Lines 186-191, the fresh branch of Start / Resume: indices of the
catalog rows, shuffled; index 0; no responses; an empty widget store. -/
def freshSession (df : List TrialRow) (rand : Nat → Nat) : Session :=
  { trial_order := pyShuffle rand (List.range df.length)
    trial_index := 0
    responses := []
    anchorChoice := []
    abChoice := []
    ratings := [] }

/-- Lines 227-229: the catalog row of the current trial,
df.iloc row lookup at trial_order position trial_index. -/
def currentRow (df : List TrialRow) (s : Session) : TrialRow :=
  df.getD (s.trial_order.getD s.trial_index 0) defaultRow

/-- Lines 248-253: the anchor list in presentation order. -/
def anchorsFor (t : TrialRow) : AnchorOrder → List (String × String)
  | .native_first => [("Native Accent", t.native_path), ("Indian Accent", t.indian_path)]
  | .indian_first => [("Indian Accent", t.indian_path), ("Native Accent", t.native_path)]

/-- Lines 273-278: the sample list in presentation order. -/
def samplesFor (t : TrialRow) : ABOrder → List (String × String)
  | .A_first => [("Sample A", t.A_path), ("Sample B", t.B_path)]
  | .B_first => [("Sample B", t.B_path), ("Sample A", t.A_path)]

/-- Lines 242-244: set the anchor draw for the current trial position
only when no value is stored under its key yet. -/
def freezeAnchor (s : Session) (rA : AnchorOrder) : Session :=
  match lookupK s.anchorChoice s.trial_index with
  | some _ => s
  | none => { s with anchorChoice := setK s.anchorChoice s.trial_index rA }

/-- Lines 269-271: set the sample draw for the current position and
one anchor label only when no value is stored under its key yet. -/
def freezeAB (s : Session) (aLabel : String) (r : ABOrder) : Session :=
  match lookupK s.abChoice (s.trial_index, aLabel) with
  | some _ => s
  | none => { s with abChoice := setK s.abChoice (s.trial_index, aLabel) r }

/-- The anchor order read back from the store (line 246). -/
def anchorOrderAt (s : Session) (pos : Nat) : AnchorOrder :=
  (lookupK s.anchorChoice pos).getD .native_first

/-- The sample order read back from the store (line 273). -/
def abOrderAt (s : Session) (pos : Nat) (aLabel : String) : ABOrder :=
  (lookupK s.abChoice (pos, aLabel)).getD .A_first

/-- One top-to-bottom rerender of the active trial page, restricted to
its writes: freeze the anchor draw, then for each anchor in display
order freeze that anchor's sample draw. `rA` and `rAB` are the fresh
random draws used only where no frozen value exists. -/
def renderFreezes (s : Session) (t : TrialRow) (rA : AnchorOrder) (rAB : String → ABOrder) : Session :=
  let s1 := freezeAnchor s rA
  (anchorsFor t (anchorOrderAt s1 s1.trial_index)).foldl
    (fun acc p => freezeAB acc p.1 (rAB p.1)) s1

/-- Lines 255-305: all_selected starts True and is cleared when any of
the four rating keys of the rendered trial is missing from the store,
iterating anchors then samples in presentation order. -/
def all_selected (s : Session) (t : TrialRow) : Bool :=
  (anchorsFor t (anchorOrderAt s s.trial_index)).all fun a =>
    (samplesFor t (abOrderAt s s.trial_index a.1)).all fun sm =>
      (lookupK s.ratings (s.trial_index, a.1, sm.1)).isSome

/-- Line 320-324, the dict comprehension over st.session_state keys
with the rating-key form of the current position. -/
def ratingsAt (s : Session) (pos : Nat) : List (RKey × Nat) :=
  s.ratings.filter fun e => e.1.1 = pos

/-- Lines 315-329 with the button press taken as given: build the
response dict from the current row and the current-position ratings,
append it, increment trial_index. -/
def submitResponse (df : List TrialRow) (s : Session) (now : String) : Session :=
  let t := currentRow df s
  { s with
    responses := s.responses ++
      [{ trial_id := t.trial_id, transcript := t.transcript,
         ratings := ratingsAt s s.trial_index, timestamp := now }]
    trial_index := s.trial_index + 1 }

/-- One user interaction on the widget surface, carrying the fresh
random draws the rerender would consume. -/
inductive Event where
  | setRating (anchorLabel sampleLabel : String) (v : Nat)
      (rA : AnchorOrder) (rAB : String → ABOrder)
  | pressNext (now : String) (rA : AnchorOrder) (rAB : String → ABOrder)

/-- One interaction processed by a full script rerun. The completion
check (line 202) stops the page once trial_index reaches TOTAL_TRIALS,
so a completed session accepts no further widget input. Otherwise the
current trial is rendered (freezing its presentation draws) and the
event lands: a rating can only be produced by one of the four radio
widgets of the rendered trial, whose labels come from the rendered
lists and whose options are 1-5 (line 289-294); Next only submits when
the button is enabled, that is when all_selected holds (line 313). -/
def applyEvent (df : List TrialRow) (s : Session) (e : Event) : Session :=
  if TOTAL_TRIALS ≤ s.trial_index then s
  else
    match e with
    | .setRating a sm v rA rAB =>
      let s1 := renderFreezes s (currentRow df s) rA rAB
      if (a = "Native Accent" ∨ a = "Indian Accent")
          ∧ (sm = "Sample A" ∨ sm = "Sample B") ∧ 1 ≤ v ∧ v ≤ 5 then
        { s1 with ratings := setK s1.ratings (s1.trial_index, a, sm) v }
      else s1
    | .pressNext now rA rAB =>
      let s1 := renderFreezes s (currentRow df s) rA rAB
      if all_selected s1 (currentRow df s) then submitResponse df s1 now
      else s1

/-- A sequence of interactions against a session. -/
def runEvents (df : List TrialRow) (s : Session) (es : List Event) : Session :=
  es.foldl (applyEvent df) s

/-! ## Progress store (app.py lines 55-98) and the results folder -/

/-- The data dict written by save_progress (lines 91-95). The
numpy-coercion loop of lines 74-89 is the identity here because the
modelled values are already native integers. -/
structure Progress where
  trial_order : List Nat
  trial_index : Nat
  responses : List Response
deriving DecidableEq

/-- The snapshot save_progress serialises from the session variables. -/
def snapshot (s : Session) : Progress :=
  { trial_order := s.trial_order, trial_index := s.trial_index,
    responses := s.responses }

/-- Content of a stored per-participant progress file: either it
parses as a progress dict or json.load raises on it. -/
inductive FileContent where
  | good (p : Progress)
  | corrupt
deriving DecidableEq

/-- The results folder: per-participant progress files and
per-participant final CSV exports, keyed by participant id. -/
structure FS where
  progressFiles : List (String × FileContent)
  finalFiles : List (String × List Response)
deriving DecidableEq

/-- A results folder with no files. -/
def emptyFS : FS := { progressFiles := [], finalFiles := [] }

/-- Lines 55-68: read the progress file if present; a file whose parse
raises is deleted and reported as absent. Returns the folder after any
deletion together with the parse result. -/
def load_progress (fs : FS) (pid : String) : FS × Option Progress :=
  match lookupK fs.progressFiles pid with
  | none => (fs, none)
  | some (.good p) => (fs, some p)
  | some .corrupt =>
    ({ fs with progressFiles := removeK fs.progressFiles pid }, none)

/-- Lines 70-98: write the session snapshot to the progress file. -/
def save_progress (fs : FS) (pid : String) (s : Session) : FS :=
  { fs with progressFiles := setK fs.progressFiles pid (.good (snapshot s)) }

/-! ## Start / Resume and the completion check (app.py lines 163-221) -/

/-- Lines 165-196, the Start / Resume handler for a typed name in a
fresh browser connection: an empty trimmed name only warns; otherwise
the participant id is derived, the progress file is consulted, and the
session variables are either restored from it verbatim or initialised
fresh. Returns the folder after load_progress, the created session if
any, and the status message shown. A parsed progress dict written by
save_progress is a non-empty dict, hence truthy at line 181. -/
def startOrResume (df : List TrialRow) (fs : FS) (name_input : String)
    (rand : Nat → Nat) : FS × Option Session × String :=
  if pyStrip name_input = "" then (fs, none, "Name required.")
  else
    let pid := participant_id name_input
    let r := load_progress fs pid
    match r.2 with
    | some p =>
      (r.1,
       some { trial_order := p.trial_order, trial_index := p.trial_index,
              responses := p.responses, anchorChoice := [], abChoice := [],
              ratings := [] },
       "Previous progress found. Resuming study.")
    | none =>
      (r.1, some (freshSession df rand),
       "New session started. Your participant ID: " ++ pid)

/-- Lines 202-221, the completion check at the top of every rerun:
once trial_index has reached TOTAL_TRIALS, write the final CSV from
the responses, delete the progress file if it exists, and stop on the
completion screen. Returns the folder and whether the completion
screen was shown. -/
def completionCheck (fs : FS) (pid : String) (s : Session) : FS × Bool :=
  if TOTAL_TRIALS ≤ s.trial_index then
    ({ progressFiles := removeK fs.progressFiles pid,
       finalFiles := setK fs.finalFiles pid s.responses }, true)
  else (fs, false)

/-- One interaction of the full page against the results folder: the
event lands on the session, the Next handler persists the snapshot
when it submitted (line 331), and the rerun it triggers runs the
completion check on the new state. -/
def flowEvent (df : List TrialRow) (pid : String) (st : FS × Session)
    (e : Event) : FS × Session :=
  let s2 := applyEvent df st.2 e
  let fs2 := if s2.trial_index = st.2.trial_index then st.1
             else save_progress st.1 pid s2
  ((completionCheck fs2 pid s2).1, s2)

/-- A sequence of interactions of the full page. -/
def runFlow (df : List TrialRow) (pid : String) (st : FS × Session)
    (es : List Event) : FS × Session :=
  es.foldl (flowEvent df pid) st

/-! ## Concrete instances used by counterexamples and witnesses -/

/-- A synthetic catalog row. -/
def mkRow (i : Nat) : TrialRow :=
  { trial_id := toString i, transcript := "s", native_path := "n",
    indian_path := "d", A_path := "a", B_path := "b" }

/-- A 50-row catalog, matching the fixed trial count. -/
def df50 : List TrialRow := (List.range 50).map mkRow

/-- A fixed random stream. -/
def rand0 : Nat → Nat := fun _ => 0

/-- A fixed sample-order draw. -/
def abA : String → ABOrder := fun _ => ABOrder.A_first

/-- One full trial worth of interactions: the participant answers all
four rating widgets, then presses the enabled Next button. -/
def trialBlock : List Event :=
  [.setRating "Native Accent" "Sample A" 1 .native_first abA,
   .setRating "Native Accent" "Sample B" 2 .native_first abA,
   .setRating "Indian Accent" "Sample A" 3 .native_first abA,
   .setRating "Indian Accent" "Sample B" 4 .native_first abA,
   .pressNext "2026-01-01T00:00:00" .native_first abA]

/-- The interactions of `n` consecutive full trials. -/
def repeatBlock : Nat → List Event
  | 0 => []
  | n + 1 => trialBlock ++ repeatBlock n

/-- The participant name used in concrete scenarios. -/
def janeName : String := "Jane Doe"

/-- The id the app derives for that name. -/
def janePid : String := participant_id janeName

/-- A complete pass through the study: a fresh session for the name,
then all 50 trials answered and submitted against an empty results
folder. -/
def janeRun : FS × Session :=
  runFlow df50 janePid (emptyFS, freshSession df50 rand0) (repeatBlock 50)

/-- The same participant types the same name again in a fresh browser
connection after completing the study. -/
def janeReentry : FS × Option Session × String :=
  startOrResume df50 janeRun.1 janeName rand0

/-- A first-trial-only run, for claims about a single submission. -/
def oneTrialRun : Session :=
  runEvents df50 (freshSession df50 rand0) trialBlock

/-- A session already past the final trial. -/
def doneSession : Session :=
  { trial_order := List.range 50, trial_index := 50, responses := [],
    anchorChoice := [], abChoice := [], ratings := [] }

/-- A session whose four current ratings are all answered. -/
def answeredSession : Session :=
  { trial_order := List.range 50, trial_index := 0, responses := [],
    anchorChoice := [], abChoice := [],
    ratings := [((0, "Native Accent", "Sample A"), 1),
                ((0, "Native Accent", "Sample B"), 2),
                ((0, "Indian Accent", "Sample A"), 3),
                ((0, "Indian Accent", "Sample B"), 4)] }

/-- A results folder holding one unparseable progress file. -/
def corruptFS : FS :=
  { progressFiles := [(participant_id "Ada Lovelace", FileContent.corrupt)],
    finalFiles := [] }

/-- The keys of an association list are pairwise distinct. -/
def KeysNodup (m : List (K × V)) : Prop := (m.map Prod.fst).Nodup

/-- The label pairs of the four rating widgets of one trial. -/
def trialLabels : List (String × String) :=
  [("Native Accent", "Sample A"), ("Native Accent", "Sample B"),
   ("Indian Accent", "Sample A"), ("Indian Accent", "Sample B")]

/-- The four rating keys of one trial position. -/
def trialKeys (pos : Nat) : List RKey := trialLabels.map fun l => (pos, l)

/-- Well-formedness of the rating store: distinct keys, anchor and
sample labels drawn from the rendered radio widgets, values among the
radio options 1-5. -/
def RatingsWF (m : List (RKey × Nat)) : Prop :=
  KeysNodup m
  ∧ ∀ e ∈ m, (e.1.2.1 = "Native Accent" ∨ e.1.2.1 = "Indian Accent")
      ∧ (e.1.2.2 = "Sample A" ∨ e.1.2.2 = "Sample B")
      ∧ 1 ≤ e.2 ∧ e.2 ≤ 5

/-- Invariant of every session state reachable from a fresh start:
the cursor counts the stored responses, the order covers the catalog,
the rating store is well-formed, and the response stored at list
position j was submitted at trial position j, carrying the catalog
row selected by trial_order there and exactly its four ratings. -/
def Inv (df : List TrialRow) (s : Session) : Prop :=
  s.trial_index = s.responses.length
  ∧ s.trial_order.length = df.length
  ∧ RatingsWF s.ratings
  ∧ ∀ j, j < s.responses.length →
      (s.responses.getD j emptyResponse).trial_id
          = (df.getD (s.trial_order.getD j 0) defaultRow).trial_id
      ∧ (s.responses.getD j emptyResponse).transcript
          = (df.getD (s.trial_order.getD j 0) defaultRow).transcript
      ∧ (s.responses.getD j emptyResponse).ratings.length = 4
      ∧ ∀ e ∈ (s.responses.getD j emptyResponse).ratings,
          e.1.1 = j
          ∧ (e.1.2.1 = "Native Accent" ∨ e.1.2.1 = "Indian Accent")
          ∧ (e.1.2.2 = "Sample A" ∨ e.1.2.2 = "Sample B")
          ∧ 1 ≤ e.2 ∧ e.2 ≤ 5

/-! ## Lemmas: the shuffle is a permutation -/

theorem cons_set_perm (d a : α) :
    ∀ (t : List α) (m : Nat), m < t.length →
      (t.getD m d :: t.set m a).Perm (a :: t) := by
  intro t
  induction t with
  | nil => intro m hm; simp at hm
  | cons b t' ih =>
    intro m hm
    cases m with
    | zero => simpa using List.Perm.swap a b t'
    | succ k =>
      have hk : k < t'.length := by simpa using hm
      have h1 : (t'.getD k d :: b :: t'.set k a).Perm
          (b :: t'.getD k d :: t'.set k a) := List.Perm.swap _ _ _
      have h2 : (b :: t'.getD k d :: t'.set k a).Perm (b :: a :: t') :=
        List.Perm.cons b (ih k hk)
      have h3 : (b :: a :: t').Perm (a :: b :: t') := List.Perm.swap _ _ _
      simpa using (h1.trans h2).trans h3

theorem listSwap_perm (xs : List Nat) (i j : Nat)
    (hi : i < xs.length) (hj : j < xs.length) :
    (listSwap xs i j).Perm xs := by
  classical
  unfold listSwap
  induction xs generalizing i j with
  | nil => simp at hi
  | cons b t ih =>
    cases i with
    | zero =>
      cases j with
      | zero => simp
      | succ m =>
        have hm : m < t.length := by simpa using hj
        simpa using cons_set_perm 0 b t m hm
    | succ n =>
      cases j with
      | zero =>
        have hn : n < t.length := by simpa using hi
        simpa using cons_set_perm 0 b t n hn
      | succ m =>
        have hn : n < t.length := by simpa using hi
        have hm : m < t.length := by simpa using hj
        simpa using List.Perm.cons b (ih n m hn hm)

theorem listSwap_length (xs : List Nat) (i j : Nat) :
    (listSwap xs i j).length = xs.length := by
  simp [listSwap]

theorem shuffleGo_perm (rand : Nat → Nat) :
    ∀ (k : Nat) (xs : List Nat), k < xs.length →
      (shuffleGo rand k xs).Perm xs := by
  intro k
  induction k with
  | zero => intro xs _; simp [shuffleGo]
  | succ i ih =>
    intro xs hk
    have hswap : (listSwap xs (i + 1) (rand (i + 1) % (i + 2))).Perm xs :=
      listSwap_perm xs _ _ hk
        (lt_of_le_of_lt (Nat.le_of_lt_succ (Nat.mod_lt _ (by omega))) hk)
    have hlen : i < (listSwap xs (i + 1) (rand (i + 1) % (i + 2))).length := by
      rw [listSwap_length]; omega
    exact (ih _ hlen).trans hswap

theorem pyShuffle_perm (rand : Nat → Nat) (xs : List Nat) :
    (pyShuffle rand xs).Perm xs := by
  cases xs with
  | nil => simp [pyShuffle, shuffleGo]
  | cons b t =>
    exact shuffleGo_perm rand _ _ (by simp)

theorem pyShuffle_length (rand : Nat → Nat) (xs : List Nat) :
    (pyShuffle rand xs).length = xs.length :=
  (pyShuffle_perm rand xs).length_eq

/-! ## Lemmas: the widget store -/

theorem lookupK_setK_self [DecidableEq K] (m : List (K × V)) (k : K) (v : V) :
    lookupK (setK m k v) k = some v := by
  induction m with
  | nil => simp [setK, lookupK]
  | cons e t ih =>
    obtain ⟨k', v'⟩ := e
    by_cases h : k' = k
    · simp [setK, h, lookupK]
    · simp [setK, h, lookupK, ih]

theorem lookupK_setK_ne [DecidableEq K] (m : List (K × V)) (k k' : K) (v : V)
    (h : k' ≠ k) : lookupK (setK m k v) k' = lookupK m k' := by
  have hk : ¬ k = k' := fun he => h he.symm
  induction m with
  | nil => simp [setK, lookupK, hk]
  | cons e t ih =>
    obtain ⟨k'', v''⟩ := e
    by_cases h2 : k'' = k
    · subst h2
      simp [setK, lookupK, hk]
    · by_cases h3 : k'' = k'
      · simp [setK, h2, lookupK, h3, h]
      · simp [setK, h2, lookupK, h3, ih]

theorem lookupK_removeK_self [DecidableEq K] (m : List (K × V)) (k : K) :
    lookupK (removeK m k) k = none := by
  induction m with
  | nil => simp [removeK, lookupK]
  | cons e t ih =>
    obtain ⟨k', v'⟩ := e
    by_cases h : k' = k
    · simp [removeK, h, ih]
    · simp [removeK, h, lookupK, ih]

theorem mem_setK [DecidableEq K] (m : List (K × V)) (k : K) (v : V) :
    ∀ e ∈ setK m k v, e = (k, v) ∨ e ∈ m := by
  induction m with
  | nil =>
    intro e he
    simp only [setK, List.mem_singleton] at he
    exact Or.inl he
  | cons p t ih =>
    obtain ⟨k', v'⟩ := p
    intro e he
    by_cases h : k' = k
    · simp only [setK, if_pos h, List.mem_cons] at he
      rcases he with he | he
      · exact Or.inl he
      · exact Or.inr (List.mem_cons_of_mem _ he)
    · simp only [setK, if_neg h, List.mem_cons] at he
      rcases he with he | he
      · exact Or.inr (by simp [he])
      · rcases ih e he with h2 | h2
        · exact Or.inl h2
        · exact Or.inr (List.mem_cons_of_mem _ h2)

theorem lookupK_mem [DecidableEq K] (m : List (K × V)) (k : K) (v : V)
    (h : lookupK m k = some v) : (k, v) ∈ m := by
  induction m with
  | nil => simp [lookupK] at h
  | cons e t ih =>
    obtain ⟨k', v'⟩ := e
    by_cases h2 : k' = k
    · subst h2
      simp [lookupK] at h
      simp [h]
    · simp [lookupK, h2] at h
      exact List.mem_cons_of_mem _ (ih h)

theorem keysNodup_nil : KeysNodup ([] : List (K × V)) := by
  simp [KeysNodup]

theorem keys_setK_subset [DecidableEq K] (m : List (K × V)) (k : K) (v : V) :
    ∀ x ∈ (setK m k v).map Prod.fst, x = k ∨ x ∈ m.map Prod.fst := by
  intro x hx
  rcases List.mem_map.mp hx with ⟨e, he, hex⟩
  rcases mem_setK m k v e he with h | h
  · left; rw [← hex, h]
  · right; exact List.mem_map.mpr ⟨e, h, hex⟩

theorem keysNodup_setK [DecidableEq K] (m : List (K × V)) (k : K) (v : V)
    (h : KeysNodup m) : KeysNodup (setK m k v) := by
  induction m with
  | nil => simp [setK, KeysNodup]
  | cons e t ih =>
    obtain ⟨k', v'⟩ := e
    have ht : KeysNodup t := (List.nodup_cons.mp h).2
    have hk' : k' ∉ t.map Prod.fst := (List.nodup_cons.mp h).1
    by_cases h2 : k' = k
    · subst h2
      simpa [setK, KeysNodup] using h
    · have : k' ∉ (setK t k v).map Prod.fst := by
        intro hc
        rcases keys_setK_subset t k v k' hc with h3 | h3
        · exact h2 h3
        · exact hk' h3
      simp only [setK, if_neg h2, KeysNodup, List.map_cons, List.nodup_cons]
      exact ⟨this, ih ht⟩

/-! ## Lemmas: rerendering only freezes presentation draws -/

theorem freezeAnchor_fields (s : Session) (r : AnchorOrder) :
    (freezeAnchor s r).ratings = s.ratings
    ∧ (freezeAnchor s r).trial_index = s.trial_index
    ∧ (freezeAnchor s r).trial_order = s.trial_order
    ∧ (freezeAnchor s r).responses = s.responses
    ∧ (freezeAnchor s r).abChoice = s.abChoice := by
  unfold freezeAnchor
  cases lookupK s.anchorChoice s.trial_index <;> simp

theorem freezeAB_fields (s : Session) (a : String) (r : ABOrder) :
    (freezeAB s a r).ratings = s.ratings
    ∧ (freezeAB s a r).trial_index = s.trial_index
    ∧ (freezeAB s a r).trial_order = s.trial_order
    ∧ (freezeAB s a r).responses = s.responses
    ∧ (freezeAB s a r).anchorChoice = s.anchorChoice := by
  unfold freezeAB
  cases lookupK s.abChoice (s.trial_index, a) <;> simp

theorem freezeABs_fields (rAB : String → ABOrder) :
    ∀ (L : List (String × String)) (s : Session),
      (L.foldl (fun acc p => freezeAB acc p.1 (rAB p.1)) s).ratings = s.ratings
      ∧ (L.foldl (fun acc p => freezeAB acc p.1 (rAB p.1)) s).trial_index = s.trial_index
      ∧ (L.foldl (fun acc p => freezeAB acc p.1 (rAB p.1)) s).trial_order = s.trial_order
      ∧ (L.foldl (fun acc p => freezeAB acc p.1 (rAB p.1)) s).responses = s.responses
      ∧ (L.foldl (fun acc p => freezeAB acc p.1 (rAB p.1)) s).anchorChoice = s.anchorChoice := by
  intro L
  induction L with
  | nil => intro s; simp
  | cons p t ih =>
    intro s
    have h1 := freezeAB_fields s p.1 (rAB p.1)
    have h2 := ih (freezeAB s p.1 (rAB p.1))
    simp only [List.foldl_cons]
    exact ⟨h2.1.trans h1.1, h2.2.1.trans h1.2.1, h2.2.2.1.trans h1.2.2.1,
      h2.2.2.2.1.trans h1.2.2.2.1, h2.2.2.2.2.trans h1.2.2.2.2⟩

theorem renderFreezes_fields (s : Session) (t : TrialRow) (rA : AnchorOrder)
    (rAB : String → ABOrder) :
    (renderFreezes s t rA rAB).ratings = s.ratings
    ∧ (renderFreezes s t rA rAB).trial_index = s.trial_index
    ∧ (renderFreezes s t rA rAB).trial_order = s.trial_order
    ∧ (renderFreezes s t rA rAB).responses = s.responses := by
  unfold renderFreezes
  have h1 := freezeAnchor_fields s rA
  have h2 := freezeABs_fields rAB
    (anchorsFor t (anchorOrderAt (freezeAnchor s rA) (freezeAnchor s rA).trial_index))
    (freezeAnchor s rA)
  exact ⟨h2.1.trans h1.1, h2.2.1.trans h1.2.1, h2.2.2.1.trans h1.2.2.1,
    h2.2.2.2.1.trans h1.2.2.2.1⟩

/-! ## Lemmas: the four rating keys of a trial -/

theorem trialKeys_nodup (pos : Nat) : (trialKeys pos).Nodup := by
  have hinj : Function.Injective (fun l : String × String => (pos, l)) := by
    intro a b hab
    simpa using congrArg Prod.snd hab
  exact List.Nodup.map hinj (by decide)

theorem ratingsWF_setK (m : List (RKey × Nat)) (pos : Nat) (a sm : String) (v : Nat)
    (hm : RatingsWF m)
    (ha : a = "Native Accent" ∨ a = "Indian Accent")
    (hs : sm = "Sample A" ∨ sm = "Sample B")
    (hv : 1 ≤ v ∧ v ≤ 5) : RatingsWF (setK m (pos, a, sm) v) := by
  refine ⟨keysNodup_setK m _ v hm.1, ?_⟩
  intro e he
  rcases mem_setK m _ v e he with h | h
  · subst h
    exact ⟨ha, hs, hv.1, hv.2⟩
  · exact hm.2 e h

/-- With all four rating widgets of a position answered and distinct
store keys, the dict comprehension of the Next handler collects
exactly four entries. -/
theorem ratingsAt_length_four (m : List (RKey × Nat)) (pos : Nat)
    (hwf : RatingsWF m)
    (h1 : (lookupK m (pos, "Native Accent", "Sample A")).isSome = true)
    (h2 : (lookupK m (pos, "Native Accent", "Sample B")).isSome = true)
    (h3 : (lookupK m (pos, "Indian Accent", "Sample A")).isSome = true)
    (h4 : (lookupK m (pos, "Indian Accent", "Sample B")).isSome = true) :
    (m.filter fun e => e.1.1 = pos).length = 4 := by
  set F := m.filter fun e : RKey × Nat => e.1.1 = pos with hF
  have hsub : F.Sublist m := List.filter_sublist m
  have hkeys_nodup : (F.map Prod.fst).Nodup :=
    List.Nodup.sublist (hsub.map Prod.fst) hwf.1
  have hforward : F.map Prod.fst ⊆ trialKeys pos := by
    intro x hx
    rcases List.mem_map.mp hx with ⟨e, he, hex⟩
    have hem : e ∈ m := hsub.subset he
    have hshape := hwf.2 e hem
    have hpos : e.1.1 = pos := by
      have := List.of_mem_filter he
      simpa using this
    subst hex
    rcases hshape.1 with ha | ha <;> rcases hshape.2.1 with hs | hs <;>
      · rw [show e.1 = (e.1.1, e.1.2.1, e.1.2.2) from rfl, hpos, ha, hs]
        simp [trialKeys, trialLabels]
  have hback : trialKeys pos ⊆ F.map Prod.fst := by
    intro x hx
    have hmem : ∀ (a sm : String),
        (lookupK m (pos, a, sm)).isSome = true →
          ((pos : Nat), a, sm) ∈ F.map Prod.fst := by
      intro a sm hsome
      rcases Option.isSome_iff_exists.mp hsome with ⟨v, hv⟩
      have hmem2 : ((pos, a, sm), v) ∈ m := lookupK_mem m _ v hv
      have hmemF : ((pos, a, sm), v) ∈ F :=
        List.mem_filter.mpr ⟨hmem2, by simp⟩
      exact List.mem_map.mpr ⟨_, hmemF, rfl⟩
    simp only [trialKeys, trialLabels, List.map_cons, List.map_nil,
      List.mem_cons, List.not_mem_nil, or_false] at hx
    rcases hx with hx | hx | hx | hx <;> subst hx
    · exact hmem _ _ h1
    · exact hmem _ _ h2
    · exact hmem _ _ h3
    · exact hmem _ _ h4
  have hle : (F.map Prod.fst).length ≤ (trialKeys pos).length :=
    (List.subperm_of_subset hkeys_nodup hforward).length_le
  have hge : (trialKeys pos).length ≤ (F.map Prod.fst).length :=
    (List.subperm_of_subset (trialKeys_nodup pos) hback).length_le
  have hlen : (F.map Prod.fst).length = 4 := by
    have : (trialKeys pos).length = 4 := by simp [trialKeys, trialLabels]
    omega
  simpa using hlen

/-- The enablement flag computed by the rendering loop holds exactly
when every one of the four rating keys of the current position is in
the store, whatever the frozen presentation orders are. -/
theorem all_selected_iff (s : Session) (t : TrialRow) :
    all_selected s t = true ↔
      ((lookupK s.ratings (s.trial_index, "Native Accent", "Sample A")).isSome = true
       ∧ (lookupK s.ratings (s.trial_index, "Native Accent", "Sample B")).isSome = true
       ∧ (lookupK s.ratings (s.trial_index, "Indian Accent", "Sample A")).isSome = true
       ∧ (lookupK s.ratings (s.trial_index, "Indian Accent", "Sample B")).isSome = true) := by
  unfold all_selected
  cases anchorOrderAt s s.trial_index <;>
    cases habN : abOrderAt s s.trial_index "Native Accent" <;>
      cases habI : abOrderAt s s.trial_index "Indian Accent" <;>
        · simp [anchorsFor, samplesFor, habN, habI]
          tauto

/-! ## The session invariant of runs started fresh -/

theorem freshSession_inv (df : List TrialRow) (rand : Nat → Nat) :
    Inv df (freshSession df rand) := by
  refine ⟨rfl, ?_, ⟨keysNodup_nil, ?_⟩, ?_⟩
  · simp [freshSession, pyShuffle_length]
  · intro e he
    simp [freshSession] at he
  · intro j hj
    simp [freshSession] at hj

theorem renderFreezes_inv (df : List TrialRow) (s : Session) (t : TrialRow)
    (rA : AnchorOrder) (rAB : String → ABOrder) (h : Inv df s) :
    Inv df (renderFreezes s t rA rAB) := by
  have hf := renderFreezes_fields s t rA rAB
  refine ⟨?_, ?_, ?_, ?_⟩
  · rw [hf.2.1, hf.2.2.2]; exact h.1
  · rw [hf.2.2.1]; exact h.2.1
  · rw [hf.1]; exact h.2.2.1
  · rw [hf.2.2.2, hf.2.2.1]; exact h.2.2.2

theorem submitResponse_inv (df : List TrialRow) (s1 : Session) (t : TrialRow)
    (now : String) (hInv1 : Inv df s1) (hsel : all_selected s1 t = true) :
    Inv df (submitResponse df s1 now) := by
  have hfour := (all_selected_iff s1 t).mp hsel
  have hlen4 : (ratingsAt s1 s1.trial_index).length = 4 :=
    ratingsAt_length_four s1.ratings s1.trial_index hInv1.2.2.1
      hfour.1 hfour.2.1 hfour.2.2.1 hfour.2.2.2
  refine ⟨?_, ?_, ?_, ?_⟩
  · simp only [submitResponse, List.length_append, List.length_cons,
      List.length_nil]
    rw [hInv1.1]
  · simpa [submitResponse] using hInv1.2.1
  · simpa [submitResponse] using hInv1.2.2.1
  · intro j hj
    simp only [submitResponse, List.length_append, List.length_cons,
      List.length_nil] at hj
    by_cases hjold : j < s1.responses.length
    · have hgetD : ((submitResponse df s1 now).responses).getD j emptyResponse
          = s1.responses.getD j emptyResponse := by
        simp only [submitResponse]
        exact List.getD_append _ _ _ _ hjold
      have horder : (submitResponse df s1 now).trial_order = s1.trial_order := by
        simp [submitResponse]
      rw [hgetD, horder]
      exact hInv1.2.2.2 j hjold
    · have hj_eq : j = s1.responses.length := by omega
      subst hj_eq
      have hgetD : ((submitResponse df s1 now).responses).getD
          s1.responses.length emptyResponse
          = { trial_id := (currentRow df s1).trial_id,
              transcript := (currentRow df s1).transcript,
              ratings := ratingsAt s1 s1.trial_index,
              timestamp := now } := by
        simp only [submitResponse]
        rw [List.getD_append_right _ _ _ _ (Nat.le_refl _)]
        simp
      have horder : (submitResponse df s1 now).trial_order = s1.trial_order := by
        simp [submitResponse]
      rw [hgetD, horder]
      have hcur : currentRow df s1 =
          df.getD (s1.trial_order.getD s1.responses.length 0) defaultRow := by
        simp [currentRow, hInv1.1]
      refine ⟨by simp only [hcur], by simp only [hcur], hlen4, ?_⟩
      intro e2 he2
      have he2m : e2 ∈ s1.ratings := List.mem_of_mem_filter he2
      have hshape := hInv1.2.2.1.2 e2 he2m
      have hpos : e2.1.1 = s1.trial_index := by
        have := List.of_mem_filter he2
        simpa using this
      exact ⟨by rw [hpos, hInv1.1], hshape.1, hshape.2.1, hshape.2.2.1,
        hshape.2.2.2⟩

theorem applyEvent_inv (df : List TrialRow) (s : Session) (e : Event)
    (h : Inv df s) : Inv df (applyEvent df s e) := by
  unfold applyEvent
  by_cases hdone : TOTAL_TRIALS ≤ s.trial_index
  · simpa [hdone] using h
  · simp only [if_neg hdone]
    cases e with
    | setRating a sm v rA rAB =>
      have hInv1 : Inv df (renderFreezes s (currentRow df s) rA rAB) :=
        renderFreezes_inv df s (currentRow df s) rA rAB h
      set s1 := renderFreezes s (currentRow df s) rA rAB with hs1
      by_cases hvalid : (a = "Native Accent" ∨ a = "Indian Accent")
          ∧ (sm = "Sample A" ∨ sm = "Sample B") ∧ 1 ≤ v ∧ v ≤ 5
      · simp only [if_pos hvalid]
        refine ⟨hInv1.1, hInv1.2.1, ?_, hInv1.2.2.2⟩
        exact ratingsWF_setK s1.ratings s1.trial_index a sm v hInv1.2.2.1
          hvalid.1 hvalid.2.1 ⟨hvalid.2.2.1, hvalid.2.2.2⟩
      · simpa [if_neg hvalid] using hInv1
    | pressNext now rA rAB =>
      have hInv1 : Inv df (renderFreezes s (currentRow df s) rA rAB) :=
        renderFreezes_inv df s (currentRow df s) rA rAB h
      by_cases hsel : all_selected (renderFreezes s (currentRow df s) rA rAB)
          (currentRow df s) = true
      · simp only [if_pos hsel]
        exact submitResponse_inv df _ (currentRow df s) now hInv1 hsel
      · simp only [if_neg hsel]
        exact hInv1

theorem runEvents_inv (df : List TrialRow) (es : List Event) :
    ∀ (s : Session), Inv df s → Inv df (runEvents df s es) := by
  induction es with
  | nil => intro s h; simpa [runEvents] using h
  | cons e t ih =>
    intro s h
    have h1 : Inv df (applyEvent df s e) := applyEvent_inv df s e h
    simpa [runEvents] using ih (applyEvent df s e) h1

/-! ## Lemmas: presentation draws are frozen once and never redrawn -/

theorem freezeAnchor_sets (s : Session) (rA : AnchorOrder) :
    (lookupK (freezeAnchor s rA).anchorChoice s.trial_index).isSome = true := by
  unfold freezeAnchor
  cases hl : lookupK s.anchorChoice s.trial_index with
  | some v => simp [hl]
  | none => simp [lookupK_setK_self]

theorem freezeAnchor_pres (s : Session) (rA : AnchorOrder) (p : Nat)
    (v : AnchorOrder) (h : lookupK s.anchorChoice p = some v) :
    lookupK (freezeAnchor s rA).anchorChoice p = some v := by
  unfold freezeAnchor
  cases hl : lookupK s.anchorChoice s.trial_index with
  | some w => simpa using h
  | none =>
    by_cases hk : p = s.trial_index
    · subst hk; rw [h] at hl; cases hl
    · simpa [lookupK_setK_ne _ _ _ _ hk] using h

theorem freezeAB_sets (s : Session) (a : String) (r : ABOrder) :
    (lookupK (freezeAB s a r).abChoice (s.trial_index, a)).isSome = true := by
  unfold freezeAB
  cases hl : lookupK s.abChoice (s.trial_index, a) with
  | some v => simp [hl]
  | none => simp [lookupK_setK_self]

theorem freezeAB_pres (s : Session) (a : String) (r : ABOrder)
    (k : Nat × String) (w : ABOrder) (h : lookupK s.abChoice k = some w) :
    lookupK (freezeAB s a r).abChoice k = some w := by
  unfold freezeAB
  cases hl : lookupK s.abChoice (s.trial_index, a) with
  | some v => simpa using h
  | none =>
    by_cases hk : k = (s.trial_index, a)
    · subst hk; rw [h] at hl; cases hl
    · simpa [lookupK_setK_ne _ _ _ _ hk] using h

theorem freezeABs_pres (rAB : String → ABOrder) :
    ∀ (L : List (String × String)) (s : Session) (k : Nat × String) (w : ABOrder),
      lookupK s.abChoice k = some w →
      lookupK ((L.foldl (fun acc p => freezeAB acc p.1 (rAB p.1)) s)).abChoice k
        = some w := by
  intro L
  induction L with
  | nil => intro s k w h; simpa using h
  | cons p t ih =>
    intro s k w h
    simp only [List.foldl_cons]
    exact ih _ k w (freezeAB_pres s p.1 (rAB p.1) k w h)

theorem freezeABs_sets (rAB : String → ABOrder) :
    ∀ (L : List (String × String)) (s : Session) (a : String),
      a ∈ L.map Prod.fst →
      (lookupK ((L.foldl (fun acc p => freezeAB acc p.1 (rAB p.1)) s)).abChoice
        (s.trial_index, a)).isSome = true := by
  intro L
  induction L with
  | nil => intro s a ha; simp at ha
  | cons p t ih =>
    intro s a ha
    simp only [List.map_cons, List.mem_cons] at ha
    simp only [List.foldl_cons]
    rcases ha with ha | ha
    · have hset := freezeAB_sets s p.1 (rAB p.1)
      rcases Option.isSome_iff_exists.mp hset with ⟨v, hv⟩
      have hpres := freezeABs_pres rAB t (freezeAB s p.1 (rAB p.1))
        (s.trial_index, p.1) v hv
      rw [ha]
      simp [hpres]
    · have hidx := (freezeAB_fields s p.1 (rAB p.1)).2.1
      have := ih (freezeAB s p.1 (rAB p.1)) a ha
      rw [hidx] at this
      exact this

theorem renderFreezes_pres (s : Session) (t : TrialRow) (rA : AnchorOrder)
    (rAB : String → ABOrder) :
    (∀ p v, lookupK s.anchorChoice p = some v →
      lookupK (renderFreezes s t rA rAB).anchorChoice p = some v)
    ∧ (∀ k w, lookupK s.abChoice k = some w →
      lookupK (renderFreezes s t rA rAB).abChoice k = some w) := by
  unfold renderFreezes
  constructor
  · intro p v h
    have hfold := (freezeABs_fields rAB
      (anchorsFor t (anchorOrderAt (freezeAnchor s rA) (freezeAnchor s rA).trial_index))
      (freezeAnchor s rA)).2.2.2.2
    rw [hfold]
    exact freezeAnchor_pres s rA p v h
  · intro k w h
    have hab := (freezeAnchor_fields s rA).2.2.2.2
    refine freezeABs_pres rAB _ _ k w ?_
    rw [hab]
    exact h

theorem renderFreezes_sets (s : Session) (t : TrialRow) (rA : AnchorOrder)
    (rAB : String → ABOrder) :
    (lookupK (renderFreezes s t rA rAB).anchorChoice s.trial_index).isSome = true
    ∧ (lookupK (renderFreezes s t rA rAB).abChoice
        (s.trial_index, "Native Accent")).isSome = true
    ∧ (lookupK (renderFreezes s t rA rAB).abChoice
        (s.trial_index, "Indian Accent")).isSome = true := by
  unfold renderFreezes
  have hidx := (freezeAnchor_fields s rA).2.1
  refine ⟨?_, ?_, ?_⟩
  · have hfold := (freezeABs_fields rAB
      (anchorsFor t (anchorOrderAt (freezeAnchor s rA) (freezeAnchor s rA).trial_index))
      (freezeAnchor s rA)).2.2.2.2
    rw [hfold]
    exact freezeAnchor_sets s rA
  · have hmem : "Native Accent" ∈ (anchorsFor t
        (anchorOrderAt (freezeAnchor s rA) (freezeAnchor s rA).trial_index)).map
          Prod.fst := by
      cases anchorOrderAt (freezeAnchor s rA) (freezeAnchor s rA).trial_index <;>
        simp [anchorsFor]
    have := freezeABs_sets rAB _ (freezeAnchor s rA) "Native Accent" hmem
    have hkey : ((freezeAnchor s rA).trial_index, "Native Accent")
        = ((s.trial_index : Nat), "Native Accent") := by rw [hidx]
    rw [hkey] at this
    simpa using this
  · have hmem : "Indian Accent" ∈ (anchorsFor t
        (anchorOrderAt (freezeAnchor s rA) (freezeAnchor s rA).trial_index)).map
          Prod.fst := by
      cases anchorOrderAt (freezeAnchor s rA) (freezeAnchor s rA).trial_index <;>
        simp [anchorsFor]
    have := freezeABs_sets rAB _ (freezeAnchor s rA) "Indian Accent" hmem
    have hkey : ((freezeAnchor s rA).trial_index, "Indian Accent")
        = ((s.trial_index : Nat), "Indian Accent") := by rw [hidx]
    rw [hkey] at this
    simpa using this

theorem submitResponse_choices (df : List TrialRow) (s : Session) (now : String) :
    (submitResponse df s now).anchorChoice = s.anchorChoice
    ∧ (submitResponse df s now).abChoice = s.abChoice := by
  simp [submitResponse]

theorem applyEvent_choicePres (df : List TrialRow) (s : Session) (e : Event) :
    (∀ p v, lookupK s.anchorChoice p = some v →
      lookupK (applyEvent df s e).anchorChoice p = some v)
    ∧ (∀ k w, lookupK s.abChoice k = some w →
      lookupK (applyEvent df s e).abChoice k = some w) := by
  unfold applyEvent
  by_cases hdone : TOTAL_TRIALS ≤ s.trial_index
  · simp only [if_pos hdone]
    exact ⟨fun p v h => h, fun k w h => h⟩
  · simp only [if_neg hdone]
    cases e with
    | setRating a sm v rA rAB =>
      have hpres := renderFreezes_pres s (currentRow df s) rA rAB
      by_cases hvalid : (a = "Native Accent" ∨ a = "Indian Accent")
          ∧ (sm = "Sample A" ∨ sm = "Sample B") ∧ 1 ≤ v ∧ v ≤ 5
      · simp only [if_pos hvalid]
        exact ⟨fun p w h => hpres.1 p w h, fun k w h => hpres.2 k w h⟩
      · simp only [if_neg hvalid]
        exact hpres
    | pressNext now rA rAB =>
      have hpres := renderFreezes_pres s (currentRow df s) rA rAB
      by_cases hsel : all_selected (renderFreezes s (currentRow df s) rA rAB)
          (currentRow df s) = true
      · simp only [if_pos hsel]
        have hsub := submitResponse_choices df
          (renderFreezes s (currentRow df s) rA rAB) now
        exact ⟨fun p w h => by rw [hsub.1]; exact hpres.1 p w h,
          fun k w h => by rw [hsub.2]; exact hpres.2 k w h⟩
      · simp only [if_neg hsel]
        exact hpres

theorem runEvents_choicePres (df : List TrialRow) (es : List Event) :
    ∀ (s : Session),
      (∀ p v, lookupK s.anchorChoice p = some v →
        lookupK (runEvents df s es).anchorChoice p = some v)
      ∧ (∀ k w, lookupK s.abChoice k = some w →
        lookupK (runEvents df s es).abChoice k = some w) := by
  induction es with
  | nil => intro s; exact ⟨fun p v h => h, fun k w h => h⟩
  | cons e t ih =>
    intro s
    have h1 := applyEvent_choicePres df s e
    have h2 := ih (applyEvent df s e)
    exact ⟨fun p v h => h2.1 p v (h1.1 p v h),
      fun k w h => h2.2 k w (h1.2 k w h)⟩

theorem applyEvent_choiceSets (df : List TrialRow) (s : Session) (e : Event)
    (hactive : ¬ TOTAL_TRIALS ≤ s.trial_index) :
    (lookupK (applyEvent df s e).anchorChoice s.trial_index).isSome = true
    ∧ (lookupK (applyEvent df s e).abChoice
        (s.trial_index, "Native Accent")).isSome = true
    ∧ (lookupK (applyEvent df s e).abChoice
        (s.trial_index, "Indian Accent")).isSome = true := by
  unfold applyEvent
  simp only [if_neg hactive]
  cases e with
  | setRating a sm v rA rAB =>
    have hsets := renderFreezes_sets s (currentRow df s) rA rAB
    by_cases hvalid : (a = "Native Accent" ∨ a = "Indian Accent")
        ∧ (sm = "Sample A" ∨ sm = "Sample B") ∧ 1 ≤ v ∧ v ≤ 5
    · simp only [if_pos hvalid]
      exact hsets
    · simp only [if_neg hvalid]
      exact hsets
  | pressNext now rA rAB =>
    have hsets := renderFreezes_sets s (currentRow df s) rA rAB
    by_cases hsel : all_selected (renderFreezes s (currentRow df s) rA rAB)
        (currentRow df s) = true
    · simp only [if_pos hsel]
      have hsub := submitResponse_choices df
        (renderFreezes s (currentRow df s) rA rAB) now
      rw [hsub.1, hsub.2]
      exact hsets
    · simp only [if_neg hsel]
      exact hsets

/-! ## Lemmas: symbolic characterisation of single interactions -/

theorem applyEvent_setRating (df : List TrialRow) (s : Session)
    (a sm : String) (v : Nat) (rA : AnchorOrder) (rAB : String → ABOrder)
    (hactive : ¬ TOTAL_TRIALS ≤ s.trial_index)
    (hvalid : (a = "Native Accent" ∨ a = "Indian Accent")
      ∧ (sm = "Sample A" ∨ sm = "Sample B") ∧ 1 ≤ v ∧ v ≤ 5) :
    (applyEvent df s (.setRating a sm v rA rAB)).trial_index = s.trial_index
    ∧ (applyEvent df s (.setRating a sm v rA rAB)).responses = s.responses
    ∧ (applyEvent df s (.setRating a sm v rA rAB)).ratings
        = setK s.ratings (s.trial_index, a, sm) v := by
  unfold applyEvent
  simp only [if_neg hactive, if_pos hvalid]
  have hf := renderFreezes_fields s (currentRow df s) rA rAB
  refine ⟨hf.2.1, hf.2.2.2, ?_⟩
  show setK (renderFreezes s (currentRow df s) rA rAB).ratings
      ((renderFreezes s (currentRow df s) rA rAB).trial_index, a, sm) v
    = setK s.ratings (s.trial_index, a, sm) v
  rw [hf.1, hf.2.1]

theorem applyEvent_pressNext (df : List TrialRow) (s : Session)
    (now : String) (rA : AnchorOrder) (rAB : String → ABOrder)
    (hactive : ¬ TOTAL_TRIALS ≤ s.trial_index)
    (h1 : (lookupK s.ratings (s.trial_index, "Native Accent", "Sample A")).isSome = true)
    (h2 : (lookupK s.ratings (s.trial_index, "Native Accent", "Sample B")).isSome = true)
    (h3 : (lookupK s.ratings (s.trial_index, "Indian Accent", "Sample A")).isSome = true)
    (h4 : (lookupK s.ratings (s.trial_index, "Indian Accent", "Sample B")).isSome = true) :
    (applyEvent df s (.pressNext now rA rAB)).trial_index = s.trial_index + 1
    ∧ (applyEvent df s (.pressNext now rA rAB)).responses.length
        = s.responses.length + 1 := by
  unfold applyEvent
  simp only [if_neg hactive]
  have hf := renderFreezes_fields s (currentRow df s) rA rAB
  have hsel : all_selected (renderFreezes s (currentRow df s) rA rAB)
      (currentRow df s) = true := by
    rw [all_selected_iff, hf.1, hf.2.1]
    exact ⟨h1, h2, h3, h4⟩
  simp only [if_pos hsel]
  constructor
  · show (submitResponse df (renderFreezes s (currentRow df s) rA rAB) now).trial_index
      = s.trial_index + 1
    simp only [submitResponse]
    rw [hf.2.1]
  · show (submitResponse df (renderFreezes s (currentRow df s) rA rAB) now).responses.length
      = s.responses.length + 1
    simp only [submitResponse, List.length_append, List.length_cons, List.length_nil]
    rw [hf.2.2.2]

theorem flowEvent_inactiveStep (df : List TrialRow) (pid : String) (fs : FS)
    (s : Session) (e : Event)
    (hidx : (applyEvent df s e).trial_index = s.trial_index)
    (hact : ¬ TOTAL_TRIALS ≤ s.trial_index) :
    flowEvent df pid (fs, s) e = (fs, applyEvent df s e) := by
  have hact2 : ¬ TOTAL_TRIALS ≤ (applyEvent df s e).trial_index := by
    rw [hidx]; exact hact
  simp [flowEvent, hidx, completionCheck, hact2, hact]

theorem flowEvent_submitActive (df : List TrialRow) (pid : String) (fs : FS)
    (s : Session) (e : Event)
    (hidx : (applyEvent df s e).trial_index ≠ s.trial_index)
    (hact2 : ¬ TOTAL_TRIALS ≤ (applyEvent df s e).trial_index) :
    flowEvent df pid (fs, s) e
      = (save_progress fs pid (applyEvent df s e), applyEvent df s e) := by
  simp [flowEvent, hidx, completionCheck, hact2]

theorem flowEvent_submitComplete (df : List TrialRow) (pid : String) (fs : FS)
    (s : Session) (e : Event)
    (hidx : (applyEvent df s e).trial_index ≠ s.trial_index)
    (hdone : TOTAL_TRIALS ≤ (applyEvent df s e).trial_index) :
    lookupK (flowEvent df pid (fs, s) e).1.progressFiles pid = none
    ∧ (flowEvent df pid (fs, s) e).2 = applyEvent df s e := by
  constructor
  · simp [flowEvent, hidx, completionCheck, hdone, save_progress,
      lookupK_removeK_self]
  · rfl

theorem runFlow_session (df : List TrialRow) (pid : String) :
    ∀ (es : List Event) (st : FS × Session),
      (runFlow df pid st es).2 = runEvents df st.2 es := by
  intro es
  induction es with
  | nil => intro st; rfl
  | cons e t ih =>
    intro st
    simp only [runFlow, runEvents, List.foldl_cons]
    have h := ih (flowEvent df pid st e)
    simp only [runFlow, runEvents] at h
    exact h

/-! ## Lemmas: one full trial of interactions -/

theorem fourRatings_run (df : List TrialRow) (s : Session)
    (hactive : ¬ TOTAL_TRIALS ≤ s.trial_index) :
    (runEvents df s (trialBlock.take 4)).trial_index = s.trial_index
    ∧ (runEvents df s (trialBlock.take 4)).responses = s.responses
    ∧ (runEvents df s (trialBlock.take 4)).ratings
        = setK (setK (setK (setK s.ratings
            (s.trial_index, "Native Accent", "Sample A") 1)
            (s.trial_index, "Native Accent", "Sample B") 2)
            (s.trial_index, "Indian Accent", "Sample A") 3)
            (s.trial_index, "Indian Accent", "Sample B") 4 := by
  obtain ⟨i1, r1, g1⟩ := applyEvent_setRating df s
    "Native Accent" "Sample A" 1 .native_first abA hactive (by decide)
  obtain ⟨i2, r2, g2⟩ := applyEvent_setRating df
    (applyEvent df s (.setRating "Native Accent" "Sample A" 1 .native_first abA))
    "Native Accent" "Sample B" 2 .native_first abA
    (by rw [i1]; exact hactive) (by decide)
  rw [i1] at i2
  rw [r1] at r2
  rw [g1, i1] at g2
  obtain ⟨i3, r3, g3⟩ := applyEvent_setRating df
    (applyEvent df
      (applyEvent df s (.setRating "Native Accent" "Sample A" 1 .native_first abA))
      (.setRating "Native Accent" "Sample B" 2 .native_first abA))
    "Indian Accent" "Sample A" 3 .native_first abA
    (by rw [i2]; exact hactive) (by decide)
  rw [i2] at i3
  rw [r2] at r3
  rw [g2, i2] at g3
  obtain ⟨i4, r4, g4⟩ := applyEvent_setRating df
    (applyEvent df
      (applyEvent df
        (applyEvent df s (.setRating "Native Accent" "Sample A" 1 .native_first abA))
        (.setRating "Native Accent" "Sample B" 2 .native_first abA))
      (.setRating "Indian Accent" "Sample A" 3 .native_first abA))
    "Indian Accent" "Sample B" 4 .native_first abA
    (by rw [i3]; exact hactive) (by decide)
  rw [i3] at i4
  rw [r3] at r4
  rw [g3, i3] at g4
  exact ⟨i4, r4, g4⟩

theorem trialBlock_ready (df : List TrialRow) (s : Session)
    (hactive : ¬ TOTAL_TRIALS ≤ s.trial_index) :
    (lookupK (runEvents df s (trialBlock.take 4)).ratings
      ((runEvents df s (trialBlock.take 4)).trial_index,
        "Native Accent", "Sample A")).isSome = true
    ∧ (lookupK (runEvents df s (trialBlock.take 4)).ratings
      ((runEvents df s (trialBlock.take 4)).trial_index,
        "Native Accent", "Sample B")).isSome = true
    ∧ (lookupK (runEvents df s (trialBlock.take 4)).ratings
      ((runEvents df s (trialBlock.take 4)).trial_index,
        "Indian Accent", "Sample A")).isSome = true
    ∧ (lookupK (runEvents df s (trialBlock.take 4)).ratings
      ((runEvents df s (trialBlock.take 4)).trial_index,
        "Indian Accent", "Sample B")).isSome = true := by
  obtain ⟨hi, _, hr⟩ := fourRatings_run df s hactive
  rw [hi, hr]
  have ne21 : ((s.trial_index : Nat), "Native Accent", "Sample A")
      ≠ (s.trial_index, "Native Accent", "Sample B") := by simp
  have ne31 : ((s.trial_index : Nat), "Native Accent", "Sample A")
      ≠ (s.trial_index, "Indian Accent", "Sample A") := by simp
  have ne41 : ((s.trial_index : Nat), "Native Accent", "Sample A")
      ≠ (s.trial_index, "Indian Accent", "Sample B") := by simp
  have ne32 : ((s.trial_index : Nat), "Native Accent", "Sample B")
      ≠ (s.trial_index, "Indian Accent", "Sample A") := by simp
  have ne42 : ((s.trial_index : Nat), "Native Accent", "Sample B")
      ≠ (s.trial_index, "Indian Accent", "Sample B") := by simp
  have ne43 : ((s.trial_index : Nat), "Indian Accent", "Sample A")
      ≠ (s.trial_index, "Indian Accent", "Sample B") := by simp
  refine ⟨?_, ?_, ?_, ?_⟩
  · rw [lookupK_setK_ne _ _ _ _ ne41, lookupK_setK_ne _ _ _ _ ne31,
      lookupK_setK_ne _ _ _ _ ne21, lookupK_setK_self]
    rfl
  · rw [lookupK_setK_ne _ _ _ _ ne42, lookupK_setK_ne _ _ _ _ ne32,
      lookupK_setK_self]
    rfl
  · rw [lookupK_setK_ne _ _ _ _ ne43, lookupK_setK_self]
    rfl
  · rw [lookupK_setK_self]
    rfl

theorem runEvents_trialBlock (df : List TrialRow) (s : Session)
    (hactive : ¬ TOTAL_TRIALS ≤ s.trial_index) :
    (runEvents df s trialBlock).trial_index = s.trial_index + 1
    ∧ (runEvents df s trialBlock).responses.length
        = s.responses.length + 1 := by
  obtain ⟨hi, hresp, _⟩ := fourRatings_run df s hactive
  obtain ⟨l1, l2, l3, l4⟩ := trialBlock_ready df s hactive
  have hact4 : ¬ TOTAL_TRIALS ≤ (runEvents df s (trialBlock.take 4)).trial_index := by
    rw [hi]; exact hactive
  obtain ⟨i5, r5⟩ := applyEvent_pressNext df (runEvents df s (trialBlock.take 4))
    "2026-01-01T00:00:00" .native_first abA hact4 l1 l2 l3 l4
  rw [hi] at i5
  rw [hresp] at r5
  exact ⟨i5, r5⟩

theorem runFlow_trialBlock (df : List TrialRow) (pid : String) (fs : FS)
    (s : Session) (hactive : ¬ TOTAL_TRIALS ≤ s.trial_index) :
    (runFlow df pid (fs, s) trialBlock).2.trial_index = s.trial_index + 1
    ∧ (TOTAL_TRIALS ≤ s.trial_index + 1 →
        lookupK (runFlow df pid (fs, s) trialBlock).1.progressFiles pid
          = none) := by
  obtain ⟨i1, r1, g1⟩ := applyEvent_setRating df s
    "Native Accent" "Sample A" 1 .native_first abA hactive (by decide)
  obtain ⟨hi4, hresp4, _⟩ := fourRatings_run df s hactive
  obtain ⟨l1, l2, l3, l4⟩ := trialBlock_ready df s hactive
  have hact4 : ¬ TOTAL_TRIALS ≤ (runEvents df s (trialBlock.take 4)).trial_index := by
    rw [hi4]; exact hactive
  obtain ⟨i5, r5⟩ := applyEvent_pressNext df (runEvents df s (trialBlock.take 4))
    "2026-01-01T00:00:00" .native_first abA hact4 l1 l2 l3 l4
  have hsess := runFlow_session df pid trialBlock (fs, s)
  constructor
  · rw [hsess]
    exact (runEvents_trialBlock df s hactive).1
  · intro hdone
    -- the first four interactions leave the folder untouched
    have hf1 := flowEvent_inactiveStep df pid fs s
      (.setRating "Native Accent" "Sample A" 1 .native_first abA) i1 hactive
    obtain ⟨i2, r2, g2⟩ := applyEvent_setRating df
      (applyEvent df s (.setRating "Native Accent" "Sample A" 1 .native_first abA))
      "Native Accent" "Sample B" 2 .native_first abA
      (by rw [i1]; exact hactive) (by decide)
    have hf2 := flowEvent_inactiveStep df pid fs
      (applyEvent df s (.setRating "Native Accent" "Sample A" 1 .native_first abA))
      (.setRating "Native Accent" "Sample B" 2 .native_first abA) i2
      (by rw [i1]; exact hactive)
    obtain ⟨i3, r3, g3⟩ := applyEvent_setRating df
      (applyEvent df
        (applyEvent df s (.setRating "Native Accent" "Sample A" 1 .native_first abA))
        (.setRating "Native Accent" "Sample B" 2 .native_first abA))
      "Indian Accent" "Sample A" 3 .native_first abA
      (by rw [i2, i1]; exact hactive) (by decide)
    have hf3 := flowEvent_inactiveStep df pid fs
      (applyEvent df
        (applyEvent df s (.setRating "Native Accent" "Sample A" 1 .native_first abA))
        (.setRating "Native Accent" "Sample B" 2 .native_first abA))
      (.setRating "Indian Accent" "Sample A" 3 .native_first abA) i3
      (by rw [i2, i1]; exact hactive)
    obtain ⟨i4, r4, g4⟩ := applyEvent_setRating df
      (applyEvent df
        (applyEvent df
          (applyEvent df s (.setRating "Native Accent" "Sample A" 1 .native_first abA))
          (.setRating "Native Accent" "Sample B" 2 .native_first abA))
        (.setRating "Indian Accent" "Sample A" 3 .native_first abA))
      "Indian Accent" "Sample B" 4 .native_first abA
      (by rw [i3, i2, i1]; exact hactive) (by decide)
    have hf4 := flowEvent_inactiveStep df pid fs
      (applyEvent df
        (applyEvent df
          (applyEvent df s (.setRating "Native Accent" "Sample A" 1 .native_first abA))
          (.setRating "Native Accent" "Sample B" 2 .native_first abA))
        (.setRating "Indian Accent" "Sample A" 3 .native_first abA))
      (.setRating "Indian Accent" "Sample B" 4 .native_first abA) i4
      (by rw [i3, i2, i1]; exact hactive)
    -- the fifth submits and completes
    have hidx5 : (applyEvent df (runEvents df s (trialBlock.take 4))
        (.pressNext "2026-01-01T00:00:00" .native_first abA)).trial_index
        ≠ (runEvents df s (trialBlock.take 4)).trial_index := by
      rw [i5, hi4]
      omega
    have hdone5 : TOTAL_TRIALS ≤ (applyEvent df (runEvents df s (trialBlock.take 4))
        (.pressNext "2026-01-01T00:00:00" .native_first abA)).trial_index := by
      rw [i5, hi4]
      exact hdone
    have hf5 := flowEvent_submitComplete df pid fs
      (runEvents df s (trialBlock.take 4))
      (.pressNext "2026-01-01T00:00:00" .native_first abA) hidx5 hdone5
    -- assemble: the five chained flow steps
    show lookupK ((trialBlock.foldl (flowEvent df pid) (fs, s)).1).progressFiles pid
      = none
    simp only [trialBlock, List.foldl_cons, List.foldl_nil]
    rw [hf1, hf2, hf3, hf4]
    exact hf5.1

theorem repeatBlock_zero : repeatBlock 0 = [] := rfl

theorem repeatBlock_succ (n : Nat) :
    repeatBlock (n + 1) = trialBlock ++ repeatBlock n := rfl

theorem runFlow_nil (df : List TrialRow) (pid : String) (st : FS × Session) :
    runFlow df pid st [] = st := rfl

theorem runFlow_append (df : List TrialRow) (pid : String) (st : FS × Session)
    (l1 l2 : List Event) :
    runFlow df pid st (l1 ++ l2) = runFlow df pid (runFlow df pid st l1) l2 := by
  simp [runFlow, List.foldl_append]

theorem runFlow_repeatBlock (df : List TrialRow) (pid : String) :
    ∀ (n : Nat) (st : FS × Session),
      st.2.trial_index + n = TOTAL_TRIALS → 0 < n →
      (runFlow df pid st (repeatBlock n)).2.trial_index = TOTAL_TRIALS
      ∧ lookupK (runFlow df pid st (repeatBlock n)).1.progressFiles pid
          = none := by
  intro n
  induction n with
  | zero => intro st _ hpos; omega
  | succ m ih =>
    intro st hsum _
    have hactive : ¬ TOTAL_TRIALS ≤ st.2.trial_index := by omega
    have hblk := runFlow_trialBlock df pid st.1 st.2 hactive
    have hpair : runFlow df pid st trialBlock
        = runFlow df pid (st.1, st.2) trialBlock := by
      rw [Prod.mk.eta]
    rw [repeatBlock_succ, runFlow_append]
    cases m with
    | zero =>
      rw [repeatBlock_zero, runFlow_nil, hpair]
      refine ⟨by rw [hblk.1]; omega, hblk.2 (by omega)⟩
    | succ k =>
      have hidx : (runFlow df pid st trialBlock).2.trial_index
          = st.2.trial_index + 1 := by
        rw [hpair]
        exact hblk.1
      exact ih (runFlow df pid st trialBlock) (by omega) (by omega)

theorem janePid_def : janePid = participant_id janeName := rfl

/-! ## Lemmas: the two outcomes of the Start / Resume handler -/

theorem startOrResume_fresh (df : List TrialRow) (fs : FS) (name : String)
    (rand : Nat → Nat) (hname : ¬ (pyStrip name = ""))
    (hload : lookupK fs.progressFiles (participant_id name) = none) :
    startOrResume df fs name rand
      = (fs, some (freshSession df rand),
         "New session started. Your participant ID: " ++ participant_id name) := by
  simp only [startOrResume, load_progress, if_neg hname, hload]

theorem startOrResume_resume (df : List TrialRow) (fs : FS) (name : String)
    (rand : Nat → Nat) (p : Progress) (hname : ¬ (pyStrip name = ""))
    (hload : lookupK fs.progressFiles (participant_id name)
      = some (FileContent.good p)) :
    startOrResume df fs name rand
      = (fs, some { trial_order := p.trial_order, trial_index := p.trial_index,
                    responses := p.responses, anchorChoice := [], abChoice := [],
                    ratings := [] },
         "Previous progress found. Resuming study.") := by
  simp only [startOrResume, load_progress, if_neg hname, hload]

/-! ## Claim C1 -/

/-- Claim C1, counterexample: after the concrete participant completes
all 50 trials, the completion screen has deleted the progress record,
and typing the same name again in a fresh connection yields a brand
new session at trial 0 with the new-session message — the participant
is not told the study is closed and is allowed to restart, contrary to
the claim. -/
theorem completed_reentry_not_denied :
    TOTAL_TRIALS ≤ janeRun.2.trial_index
    ∧ lookupK janeRun.1.progressFiles janePid = none
    ∧ janeReentry.2.1 = some (freshSession df50 rand0)
    ∧ (freshSession df50 rand0).trial_index = 0
    ∧ janeReentry.2.2
        = "New session started. Your participant ID: " ++ janePid := by
  have hrun := runFlow_repeatBlock df50 janePid 50
    (emptyFS, freshSession df50 rand0) rfl (by omega)
  have hidx : TOTAL_TRIALS ≤ janeRun.2.trial_index := by
    show TOTAL_TRIALS ≤ (runFlow df50 janePid
      (emptyFS, freshSession df50 rand0) (repeatBlock 50)).2.trial_index
    rw [hrun.1]
  have hprog : lookupK janeRun.1.progressFiles janePid = none := by
    show lookupK (runFlow df50 janePid
      (emptyFS, freshSession df50 rand0) (repeatBlock 50)).1.progressFiles janePid
      = none
    exact hrun.2
  have hname : ¬ (pyStrip janeName = "") := by decide
  have hload : lookupK janeRun.1.progressFiles (participant_id janeName) = none := by
    rw [← janePid_def]
    exact hprog
  have hre : janeReentry = startOrResume df50 janeRun.1 janeName rand0 := rfl
  have hres := startOrResume_fresh df50 janeRun.1 janeName rand0 hname hload
  refine ⟨hidx, hprog, ?_, rfl, ?_⟩
  · rw [hre, hres]
  · rw [hre, hres, janePid_def]

/-- Claim C1, amended: once a session reaches COMPLETE the completion
screen deletes the progress record, keeping only the final CSV, so a
participant who re-enters the same name afterwards is started on a
brand new session at trial 0 with the new-session message rather than
being told the study is closed. -/
theorem completion_wipes_record_and_reentry_restarts
    (df : List TrialRow) (fs : FS) (s : Session) (name : String)
    (rand2 : Nat → Nat)
    (hname : pyStrip name ≠ "")
    (hdone : TOTAL_TRIALS ≤ s.trial_index) :
    lookupK (completionCheck fs (participant_id name) s).1.progressFiles
        (participant_id name) = none
    ∧ lookupK (completionCheck fs (participant_id name) s).1.finalFiles
        (participant_id name) = some s.responses
    ∧ (startOrResume df (completionCheck fs (participant_id name) s).1
        name rand2).2.1 = some (freshSession df rand2)
    ∧ (freshSession df rand2).trial_index = 0
    ∧ (startOrResume df (completionCheck fs (participant_id name) s).1
        name rand2).2.2
        = "New session started. Your participant ID: " ++ participant_id name := by
  have h1 : lookupK (completionCheck fs (participant_id name) s).1.progressFiles
      (participant_id name) = none := by
    simp [completionCheck, hdone, lookupK_removeK_self]
  have hres := startOrResume_fresh df (completionCheck fs (participant_id name) s).1
    name rand2 hname h1
  refine ⟨h1, ?_, ?_, rfl, ?_⟩
  · simp [completionCheck, hdone, lookupK_setK_self]
  · rw [hres]
  · rw [hres]

/-- Witness for the amended C1 theorem at a concrete completed
session. -/
theorem completion_wipes_record_witness :
    pyStrip janeName ≠ ""
    ∧ TOTAL_TRIALS ≤ doneSession.trial_index
    ∧ lookupK (completionCheck emptyFS (participant_id janeName)
        doneSession).1.progressFiles (participant_id janeName) = none
    ∧ (startOrResume [] (completionCheck emptyFS (participant_id janeName)
        doneSession).1 janeName rand0).2.1 = some (freshSession [] rand0) :=
  ⟨by decide, by decide,
    (completion_wipes_record_and_reentry_restarts [] emptyFS doneSession
      janeName rand0 (by decide) (by decide)).1,
    (completion_wipes_record_and_reentry_restarts [] emptyFS doneSession
      janeName rand0 (by decide) (by decide)).2.2.1⟩

/-! ## Claim C2 -/

theorem applyEvent_setRating_preserves (df : List TrialRow) (s : Session)
    (a sm : String) (v : Nat) (rA : AnchorOrder) (rAB : String → ABOrder) :
    (applyEvent df s (.setRating a sm v rA rAB)).trial_index = s.trial_index
    ∧ (applyEvent df s (.setRating a sm v rA rAB)).responses = s.responses := by
  unfold applyEvent
  by_cases hdone : TOTAL_TRIALS ≤ s.trial_index
  · simp [hdone]
  · simp only [if_neg hdone]
    have hf := renderFreezes_fields s (currentRow df s) rA rAB
    by_cases hvalid : (a = "Native Accent" ∨ a = "Indian Accent")
        ∧ (sm = "Sample A" ∨ sm = "Sample B") ∧ 1 ≤ v ∧ v ≤ 5
    · simp only [if_pos hvalid]
      exact ⟨hf.2.1, hf.2.2.2⟩
    · simp only [if_neg hvalid]
      exact ⟨hf.2.1, hf.2.2.2⟩

theorem applyEvent_pressNext_cases (df : List TrialRow) (s : Session)
    (now : String) (rA : AnchorOrder) (rAB : String → ABOrder)
    (hactive : ¬ TOTAL_TRIALS ≤ s.trial_index) :
    (all_selected (renderFreezes s (currentRow df s) rA rAB) (currentRow df s)
        = true
      ∧ (applyEvent df s (.pressNext now rA rAB)).trial_index = s.trial_index + 1
      ∧ (applyEvent df s (.pressNext now rA rAB)).responses.length
          = s.responses.length + 1)
    ∨ (all_selected (renderFreezes s (currentRow df s) rA rAB) (currentRow df s)
        = false
      ∧ (applyEvent df s (.pressNext now rA rAB)).trial_index = s.trial_index
      ∧ (applyEvent df s (.pressNext now rA rAB)).responses = s.responses) := by
  unfold applyEvent
  simp only [if_neg hactive]
  have hf := renderFreezes_fields s (currentRow df s) rA rAB
  by_cases hsel : all_selected (renderFreezes s (currentRow df s) rA rAB)
      (currentRow df s) = true
  · left
    simp only [if_pos hsel]
    refine ⟨hsel, ?_, ?_⟩
    · show (submitResponse df (renderFreezes s (currentRow df s) rA rAB)
        now).trial_index = s.trial_index + 1
      simp only [submitResponse]
      rw [hf.2.1]
    · show (submitResponse df (renderFreezes s (currentRow df s) rA rAB)
        now).responses.length = s.responses.length + 1
      simp only [submitResponse, List.length_append, List.length_cons,
        List.length_nil]
      rw [hf.2.2.2]
  · right
    simp only [if_neg hsel]
    exact ⟨Bool.eq_false_iff.mpr hsel, hf.2.1, hf.2.2.2⟩

/-- Claim C2: whenever an interaction submits a trial (the cursor
moves or the response list changes), all four rating keys of that
trial were present in the store, the cursor advanced by exactly one
and exactly one response was appended; moreover the Next button
enablement flag computed by any rerender holds exactly when the four
rating keys are present. -/
theorem submission_gated_on_all_four_ratings (df : List TrialRow)
    (s : Session) (e : Event)
    (hchange : (applyEvent df s e).trial_index ≠ s.trial_index
      ∨ (applyEvent df s e).responses ≠ s.responses) :
    ((lookupK s.ratings (s.trial_index, "Native Accent", "Sample A")).isSome = true
     ∧ (lookupK s.ratings (s.trial_index, "Native Accent", "Sample B")).isSome = true
     ∧ (lookupK s.ratings (s.trial_index, "Indian Accent", "Sample A")).isSome = true
     ∧ (lookupK s.ratings (s.trial_index, "Indian Accent", "Sample B")).isSome = true)
    ∧ (applyEvent df s e).trial_index = s.trial_index + 1
    ∧ (applyEvent df s e).responses.length = s.responses.length + 1
    ∧ ∀ (t : TrialRow) (rA : AnchorOrder) (rAB : String → ABOrder),
        (all_selected (renderFreezes s t rA rAB) t = true ↔
          ((lookupK s.ratings (s.trial_index, "Native Accent", "Sample A")).isSome = true
           ∧ (lookupK s.ratings (s.trial_index, "Native Accent", "Sample B")).isSome = true
           ∧ (lookupK s.ratings (s.trial_index, "Indian Accent", "Sample A")).isSome = true
           ∧ (lookupK s.ratings (s.trial_index, "Indian Accent", "Sample B")).isSome = true)) := by
  have hiff : ∀ (t : TrialRow) (rA : AnchorOrder) (rAB : String → ABOrder),
      (all_selected (renderFreezes s t rA rAB) t = true ↔
        ((lookupK s.ratings (s.trial_index, "Native Accent", "Sample A")).isSome = true
         ∧ (lookupK s.ratings (s.trial_index, "Native Accent", "Sample B")).isSome = true
         ∧ (lookupK s.ratings (s.trial_index, "Indian Accent", "Sample A")).isSome = true
         ∧ (lookupK s.ratings (s.trial_index, "Indian Accent", "Sample B")).isSome = true)) := by
    intro t rA rAB
    have hf := renderFreezes_fields s t rA rAB
    rw [all_selected_iff, hf.1, hf.2.1]
  by_cases hdone : TOTAL_TRIALS ≤ s.trial_index
  · exfalso
    have hid : applyEvent df s e = s := by
      unfold applyEvent
      simp [hdone]
    rw [hid] at hchange
    rcases hchange with h | h <;> exact h rfl
  · cases e with
    | setRating a sm v rA rAB =>
      exfalso
      have hp := applyEvent_setRating_preserves df s a sm v rA rAB
      rcases hchange with h | h
      · exact h hp.1
      · exact h hp.2
    | pressNext now rA rAB =>
      rcases applyEvent_pressNext_cases df s now rA rAB hdone with
        ⟨hsel, hi, hr⟩ | ⟨hsel, hi, hr⟩
      · exact ⟨(hiff (currentRow df s) rA rAB).mp hsel, hi, hr, hiff⟩
      · exfalso
        rcases hchange with h | h
        · exact h hi
        · exact h hr

/-- Witness for C2 at a session whose four current ratings are all
answered and whose Next press therefore submits. -/
theorem submission_gated_witness :
    ((applyEvent df50 answeredSession
        (.pressNext "t" .native_first abA)).trial_index
      ≠ answeredSession.trial_index
     ∨ (applyEvent df50 answeredSession
        (.pressNext "t" .native_first abA)).responses ≠ answeredSession.responses)
    ∧ (lookupK answeredSession.ratings
        (answeredSession.trial_index, "Native Accent", "Sample A")).isSome = true
    ∧ (applyEvent df50 answeredSession
        (.pressNext "t" .native_first abA)).trial_index
      = answeredSession.trial_index + 1
    ∧ (applyEvent df50 answeredSession
        (.pressNext "t" .native_first abA)).responses.length
      = answeredSession.responses.length + 1 :=
  ⟨Or.inl (by decide),
   (submission_gated_on_all_four_ratings df50 answeredSession
     (.pressNext "t" .native_first abA) (Or.inl (by decide))).1.1,
   (submission_gated_on_all_four_ratings df50 answeredSession
     (.pressNext "t" .native_first abA) (Or.inl (by decide))).2.1,
   (submission_gated_on_all_four_ratings df50 answeredSession
     (.pressNext "t" .native_first abA) (Or.inl (by decide))).2.2.1⟩

/-! ## Claim C3 -/

theorem hexChars_getD_mem (n : Nat) : hexChars.getD n '0' ∈ hexChars := by
  by_cases h : n < hexChars.length
  · rw [List.getD_eq_getElem hexChars '0' h]
    exact List.getElem_mem h
  · rw [List.getD_eq_default _ _ (Nat.le_of_not_lt h)]
    decide

theorem mem_byteToHex (b : Nat) (c : Char) (h : c ∈ byteToHex b) :
    c ∈ hexChars := by
  simp only [byteToHex, List.mem_cons, List.not_mem_nil, or_false] at h
  rcases h with h | h <;> rw [h] <;> exact hexChars_getD_mem _

theorem mem_bytesToHex (bs : List Nat) (c : Char) (h : c ∈ bytesToHex bs) :
    c ∈ hexChars := by
  induction bs with
  | nil => simp [bytesToHex] at h
  | cons b t ih =>
    simp only [bytesToHex, List.foldr_cons, List.mem_append] at h
    rcases h with h | h
    · exact mem_byteToHex b c h
    · exact ih h

theorem bytesToHex_length (bs : List Nat) :
    (bytesToHex bs).length = 2 * bs.length := by
  induction bs with
  | nil => simp [bytesToHex]
  | cons b t ih =>
    simp only [bytesToHex, List.foldr_cons, List.length_append, byteToHex,
      List.length_cons, List.length_nil] at ih ⊢
    omega

theorem md5Bytes_length (msg : List Nat) : (md5Bytes msg).length = 16 := by
  simp [md5Bytes, toLE4]

theorem md5HexChars_length (s : String) : (md5HexChars s).length = 32 := by
  simp [md5HexChars, bytesToHex_length, md5Bytes_length]

/-- Claim C3: for every name that is non-empty after stripping, the
derived participant id is the normalized name (stripped, spaces
replaced by underscores, upper-cased, and itself non-empty) joined by
an underscore to a 6-character hex content hash of the normalized
name, and the derivation is a pure function of the name: equal inputs
give equal ids. -/
theorem resolve_identity_spec (name : String) (h : pyStrip name ≠ "") :
    participant_id name = clean_name name ++ "_" ++ hash_id name
    ∧ (clean_name name).data
        = (pyStrip name).data.map (fun c => (if c = ' ' then '_' else c).toUpper)
    ∧ clean_name name ≠ ""
    ∧ (hash_id name).length = 6
    ∧ (∀ c, c ∈ (hash_id name).data → c ∈ hexChars)
    ∧ ∀ other : String, other = name → participant_id other = participant_id name := by
  refine ⟨rfl, rfl, ?_, ?_, ?_, ?_⟩
  · intro hc
    have hdata := congrArg String.data hc
    simp only [clean_name] at hdata
    have : (pyStrip name).data = [] := by
      have := List.map_eq_nil_iff.mp hdata
      exact this
    exact h (String.ext this)
  · show ((md5HexChars (clean_name name)).take 6).length = 6
    rw [List.length_take, md5HexChars_length]
    decide
  · intro c hc
    have hc2 : c ∈ md5HexChars (clean_name name) :=
      List.take_subset 6 _ hc
    exact mem_bytesToHex _ c hc2
  · intro other he
    rw [he]

/-- Witness for C3 at a concrete name. -/
theorem resolve_identity_witness :
    pyStrip janeName ≠ ""
    ∧ participant_id janeName = clean_name janeName ++ "_" ++ hash_id janeName
    ∧ clean_name janeName ≠ ""
    ∧ (hash_id janeName).length = 6 :=
  ⟨by decide,
   (resolve_identity_spec janeName (by decide)).1,
   (resolve_identity_spec janeName (by decide)).2.2.1,
   (resolve_identity_spec janeName (by decide)).2.2.2.1⟩

/-! ## Claim C4 -/

/-- Claim C4, counterexample: the first response persisted by a
concrete run carries its ratings under the full widget keys of the
form rating_0_anchor_sample, not under keys of the claimed form
anchor_sample, and the record consists only of trial_id, transcript,
ratings and timestamp. -/
theorem response_record_key_form_cex :
    oneTrialRun.responses.length = 1
    ∧ (oneTrialRun.responses.getD 0 emptyResponse).ratings.map
        (fun e => ratingWidgetKey e.1.1 e.1.2.1 e.1.2.2)
      = ["rating_0_Native Accent_Sample A", "rating_0_Native Accent_Sample B",
         "rating_0_Indian Accent_Sample A", "rating_0_Indian Accent_Sample B"]
    ∧ ¬ ("Native Accent_Sample A" ∈ (oneTrialRun.responses.getD 0
          emptyResponse).ratings.map
        (fun e => ratingWidgetKey e.1.1 e.1.2.1 e.1.2.2)) := by
  refine ⟨by decide, by decide, by decide⟩

/-- Claim C4, amended: every response stored by a run started fresh
carries the trial_id and transcript of the catalog row its position
selects, exactly four ratings keyed by the full rating widget key
(the word rating, the trial position, the anchor label and the sample
label joined by underscores) with values in 1..5, and a timestamp;
the record has no participant_id, trial_index or completed field. -/
theorem response_record_shape (df : List TrialRow) (rand : Nat → Nat)
    (es : List Event) (j : Nat)
    (hj : j < (runEvents df (freshSession df rand) es).responses.length) :
    ((runEvents df (freshSession df rand) es).responses.getD j
        emptyResponse).trial_id
      = (df.getD ((runEvents df (freshSession df rand) es).trial_order.getD j 0)
          defaultRow).trial_id
    ∧ ((runEvents df (freshSession df rand) es).responses.getD j
        emptyResponse).transcript
      = (df.getD ((runEvents df (freshSession df rand) es).trial_order.getD j 0)
          defaultRow).transcript
    ∧ ((runEvents df (freshSession df rand) es).responses.getD j
        emptyResponse).ratings.length = 4
    ∧ ∀ e ∈ ((runEvents df (freshSession df rand) es).responses.getD j
        emptyResponse).ratings,
        ratingWidgetKey e.1.1 e.1.2.1 e.1.2.2
          = "rating_" ++ toString j ++ "_" ++ e.1.2.1 ++ "_" ++ e.1.2.2
        ∧ (e.1.2.1 = "Native Accent" ∨ e.1.2.1 = "Indian Accent")
        ∧ (e.1.2.2 = "Sample A" ∨ e.1.2.2 = "Sample B")
        ∧ 1 ≤ e.2 ∧ e.2 ≤ 5 := by
  have hinv := runEvents_inv df es _ (freshSession_inv df rand)
  obtain ⟨h1, h2, h3, h4⟩ := hinv.2.2.2 j hj
  refine ⟨h1, h2, h3, ?_⟩
  intro e he
  obtain ⟨hpos, ha, hs, hv1, hv2⟩ := h4 e he
  refine ⟨?_, ha, hs, hv1, hv2⟩
  rw [hpos]
  rfl

/-- Witness for the amended C4 theorem at the first stored response of
a concrete run. -/
theorem response_record_shape_witness :
    0 < oneTrialRun.responses.length
    ∧ (oneTrialRun.responses.getD 0 emptyResponse).trial_id
        = (df50.getD (oneTrialRun.trial_order.getD 0 0) defaultRow).trial_id
    ∧ (oneTrialRun.responses.getD 0 emptyResponse).ratings.length = 4 :=
  ⟨by decide,
   (response_record_shape df50 rand0 trialBlock 0 (by decide)).1,
   (response_record_shape df50 rand0 trialBlock 0 (by decide)).2.2.1⟩

/-! ## Claim C5 -/

/-- Claim C5: the trial order generated for a fresh participant is a
permutation of the catalog index range, and its length equals the
catalog size. -/
theorem fresh_trial_order_permutation (df : List TrialRow) (rand : Nat → Nat) :
    ((freshSession df rand).trial_order).Perm (List.range df.length)
    ∧ (freshSession df rand).trial_order.length = df.length := by
  constructor
  · show (pyShuffle rand (List.range df.length)).Perm (List.range df.length)
    exact pyShuffle_perm rand (List.range df.length)
  · show (pyShuffle rand (List.range df.length)).length = df.length
    rw [pyShuffle_length, List.length_range]

/-! ## Claim C6 -/

/-- Claim C6: re-entering the name of a participant whose snapshot was
saved from a fresh-started session with at least one submission
resumes with the stored trial_order and responses restored verbatim
and a trial_index equal to one past the last stored trial (not 0);
stored response j holds the trial selected at position j, and the
resumed cursor differs from every stored position, so no stored trial
is rendered again. -/
theorem resume_continues_after_last_stored_trial (df : List TrialRow)
    (rand rand2 : Nat → Nat) (es : List Event) (fs0 : FS) (name : String)
    (s : Session)
    (hreach : s = runEvents df (freshSession df rand) es)
    (hname : pyStrip name ≠ "")
    (hne : s.responses ≠ []) :
    (startOrResume df (save_progress fs0 (participant_id name) s)
        name rand2).2.1
      = some { trial_order := s.trial_order, trial_index := s.trial_index,
               responses := s.responses, anchorChoice := [], abChoice := [],
               ratings := [] }
    ∧ (startOrResume df (save_progress fs0 (participant_id name) s)
        name rand2).2.2 = "Previous progress found. Resuming study."
    ∧ s.trial_index = (s.responses.length - 1) + 1
    ∧ s.trial_index ≠ 0
    ∧ (∀ j, j < s.responses.length → j ≠ s.trial_index)
    ∧ ∀ j, j < s.responses.length →
        (s.responses.getD j emptyResponse).trial_id
          = (df.getD (s.trial_order.getD j 0) defaultRow).trial_id := by
  have hinv : Inv df s := by
    rw [hreach]
    exact runEvents_inv df es _ (freshSession_inv df rand)
  have hidx := hinv.1
  have hpos : 0 < s.responses.length := List.length_pos.mpr hne
  have hload : lookupK (save_progress fs0 (participant_id name) s).progressFiles
      (participant_id name) = some (FileContent.good (snapshot s)) :=
    lookupK_setK_self _ _ _
  have hres := startOrResume_resume df
    (save_progress fs0 (participant_id name) s) name rand2 (snapshot s)
    hname hload
  refine ⟨?_, ?_, by omega, by omega, fun j hj => by omega, ?_⟩
  · rw [hres]
    rfl
  · rw [hres]
  · intro j hj
    exact (hinv.2.2.2 j hj).1

/-- Witness for C6 at a one-submission concrete run. -/
theorem resume_continues_witness :
    pyStrip janeName ≠ ""
    ∧ oneTrialRun.responses ≠ []
    ∧ oneTrialRun.trial_index = (oneTrialRun.responses.length - 1) + 1
    ∧ oneTrialRun.trial_index ≠ 0
    ∧ (startOrResume df50 (save_progress emptyFS (participant_id janeName)
        oneTrialRun) janeName rand0).2.2
      = "Previous progress found. Resuming study." :=
  ⟨by decide, by decide,
   (resume_continues_after_last_stored_trial df50 rand0 rand0 trialBlock emptyFS
     janeName oneTrialRun rfl (by decide) (by decide)).2.2.1,
   (resume_continues_after_last_stored_trial df50 rand0 rand0 trialBlock emptyFS
     janeName oneTrialRun rfl (by decide) (by decide)).2.2.2.1,
   (resume_continues_after_last_stored_trial df50 rand0 rand0 trialBlock emptyFS
     janeName oneTrialRun rfl (by decide) (by decide)).2.1⟩

/-! ## Claim C7 -/

/-- Claim C7: a progress file that fails to parse is reported as
absent and deleted by load_progress, and the Start / Resume handler
then starts that participant on a fresh session: trial_index 0, no
responses, a freshly shuffled order, with the new-session message —
no fatal failure and no partial resume. -/
theorem corrupt_progress_resets (df : List TrialRow) (fs : FS) (name : String)
    (rand : Nat → Nat)
    (hname : pyStrip name ≠ "")
    (hc : lookupK fs.progressFiles (participant_id name)
      = some FileContent.corrupt) :
    (load_progress fs (participant_id name)).2 = none
    ∧ lookupK (load_progress fs (participant_id name)).1.progressFiles
        (participant_id name) = none
    ∧ (startOrResume df fs name rand).2.1 = some (freshSession df rand)
    ∧ (freshSession df rand).trial_index = 0
    ∧ (freshSession df rand).responses = []
    ∧ (freshSession df rand).trial_order = pyShuffle rand (List.range df.length)
    ∧ (startOrResume df fs name rand).2.2
        = "New session started. Your participant ID: " ++ participant_id name := by
  have hl : load_progress fs (participant_id name)
      = ({ progressFiles := removeK fs.progressFiles (participant_id name),
           finalFiles := fs.finalFiles }, none) := by
    simp only [load_progress, hc]
  have hso : startOrResume df fs name rand
      = ({ progressFiles := removeK fs.progressFiles (participant_id name),
           finalFiles := fs.finalFiles },
         some (freshSession df rand),
         "New session started. Your participant ID: " ++ participant_id name) := by
    simp only [startOrResume, if_neg hname, hl]
  refine ⟨?_, ?_, ?_, rfl, rfl, rfl, ?_⟩
  · rw [hl]
  · rw [hl]
    exact lookupK_removeK_self _ _
  · rw [hso]
  · rw [hso]

/-- Witness for C7 at a results folder holding one unparseable
progress file. -/
theorem corrupt_progress_resets_witness :
    pyStrip "Ada Lovelace" ≠ ""
    ∧ lookupK corruptFS.progressFiles (participant_id "Ada Lovelace")
        = some FileContent.corrupt
    ∧ (load_progress corruptFS (participant_id "Ada Lovelace")).2 = none
    ∧ (startOrResume [] corruptFS "Ada Lovelace" rand0).2.1
        = some (freshSession [] rand0) :=
  ⟨by decide, by simp [corruptFS, lookupK],
   (corrupt_progress_resets [] corruptFS "Ada Lovelace" rand0 (by decide)
     (by simp [corruptFS, lookupK])).1,
   (corrupt_progress_resets [] corruptFS "Ada Lovelace" rand0 (by decide)
     (by simp [corruptFS, lookupK])).2.2.1⟩

/-! ## Claim C8 -/

/-- Claim C8: in any session run fresh against a catalog of at least
TOTAL_TRIALS rows, while a trial is rendered (the completion check has
not stopped the page, so trial_index < TOTAL_TRIALS) the cursor is
strictly below the length of trial_order, so the lookup of the current
trial position never faults. -/
theorem trial_lookup_in_bounds (df : List TrialRow) (rand : Nat → Nat)
    (es : List Event)
    (hcat : TOTAL_TRIALS ≤ df.length)
    (hactive : (runEvents df (freshSession df rand) es).trial_index
      < TOTAL_TRIALS) :
    (runEvents df (freshSession df rand) es).trial_index
      < (runEvents df (freshSession df rand) es).trial_order.length := by
  have hinv := runEvents_inv df es _ (freshSession_inv df rand)
  have hlen := hinv.2.1
  omega

/-- Witness for C8 at the 50-row catalog before any interaction. -/
theorem trial_lookup_in_bounds_witness :
    TOTAL_TRIALS ≤ df50.length
    ∧ (runEvents df50 (freshSession df50 rand0) []).trial_index < TOTAL_TRIALS
    ∧ (runEvents df50 (freshSession df50 rand0) []).trial_index
        < (runEvents df50 (freshSession df50 rand0) []).trial_order.length :=
  ⟨by decide, by decide,
   trial_lookup_in_bounds df50 rand0 [] (by decide) (by decide)⟩

/-! ## Claim C9 -/

/-- Claim C9: any interaction that renders the active trial leaves the
anchor draw and both per-anchor sample draws of that position chosen
(drawing fresh values only where none were stored), and once a draw is
stored for a position it keeps exactly that value through every later
interaction of the session. -/
theorem presentation_draws_frozen (df : List TrialRow) (s : Session)
    (e : Event) (es : List Event)
    (hactive : ¬ TOTAL_TRIALS ≤ s.trial_index) :
    ((lookupK (applyEvent df s e).anchorChoice s.trial_index).isSome = true
     ∧ (lookupK (applyEvent df s e).abChoice
        (s.trial_index, "Native Accent")).isSome = true
     ∧ (lookupK (applyEvent df s e).abChoice
        (s.trial_index, "Indian Accent")).isSome = true)
    ∧ (∀ p v, lookupK (applyEvent df s e).anchorChoice p = some v →
        lookupK (runEvents df (applyEvent df s e) es).anchorChoice p = some v)
    ∧ ∀ k w, lookupK (applyEvent df s e).abChoice k = some w →
        lookupK (runEvents df (applyEvent df s e) es).abChoice k = some w :=
  ⟨applyEvent_choiceSets df s e hactive,
   (runEvents_choicePres df es (applyEvent df s e)).1,
   (runEvents_choicePres df es (applyEvent df s e)).2⟩

/-- Witness for C9 at a fresh session receiving its first rating. -/
theorem presentation_draws_frozen_witness :
    ¬ TOTAL_TRIALS ≤ (freshSession df50 rand0).trial_index
    ∧ (lookupK (applyEvent df50 (freshSession df50 rand0)
        (.setRating "Native Accent" "Sample A" 1 .native_first abA)).anchorChoice
        (freshSession df50 rand0).trial_index).isSome = true
    ∧ (lookupK (applyEvent df50 (freshSession df50 rand0)
        (.setRating "Native Accent" "Sample A" 1 .native_first abA)).abChoice
        ((freshSession df50 rand0).trial_index, "Native Accent")).isSome = true :=
  ⟨by decide,
   (presentation_draws_frozen df50 (freshSession df50 rand0)
     (.setRating "Native Accent" "Sample A" 1 .native_first abA) []
     (by decide)).1.1,
   (presentation_draws_frozen df50 (freshSession df50 rand0)
     (.setRating "Native Accent" "Sample A" 1 .native_first abA) []
     (by decide)).1.2.1⟩

/-! ## Claim C10 -/

/-- Claim C10: a fresh session starts with trial_index equal to the
number of stored responses (both zero), every interaction preserves
that equality, and therefore every snapshot save_progress writes for
such a session stores a trial_index equal to the length of its stored
responses list. -/
theorem fresh_index_counts_responses (df : List TrialRow) (rand : Nat → Nat)
    (es : List Event) (fs : FS) (pid : String) :
    (freshSession df rand).trial_index = (freshSession df rand).responses.length
    ∧ (runEvents df (freshSession df rand) es).trial_index
        = (runEvents df (freshSession df rand) es).responses.length
    ∧ (∀ e : Event,
        (applyEvent df (runEvents df (freshSession df rand) es) e).trial_index
          = (applyEvent df (runEvents df (freshSession df rand) es) e).responses.length)
    ∧ (snapshot (runEvents df (freshSession df rand) es)).trial_index
        = (snapshot (runEvents df (freshSession df rand) es)).responses.length
    ∧ lookupK (save_progress fs pid
        (runEvents df (freshSession df rand) es)).progressFiles pid
        = some (FileContent.good (snapshot (runEvents df (freshSession df rand) es))) := by
  have hinv := runEvents_inv df es _ (freshSession_inv df rand)
  refine ⟨rfl, hinv.1, ?_, hinv.1, lookupK_setK_self _ _ _⟩
  intro e
  exact (applyEvent_inv df _ e hinv).1

end AccentStudy
